import Mathlib

/-!
# Particle animation systems (`src/wasm`): a verification development

The three translation units `AboutAnimations.cpp`, `FooterAnimations.cpp` and
`FloatingAnimations.cpp` are embedded as pure state-passing functions.

Modelling decisions.

* `float` is an element of a linear ordered field `K` (exact arithmetic: no
  rounding, no NaN, no infinities).  Every definition is computable at `K = ℚ`;
  the statements that speak of `sqrt`, `exp`, `sin` or `cos` are settled at `K = ℝ`.
  Division by zero follows the field convention `a / 0 = 0`; the statements that
  divide carry the non-zero hypothesis of the specification.
* The `<cmath>` functions the sources call are passed as a record `Libm K`;
  `realLibm` is the instance given by the real functions.
* `std::mt19937` is the stream of 32-bit words it is going to produce together
  with a cursor; the seed (`std::random_device`) chooses the stream.
  `std::uniform_real_distribution<float>(a, b)` is libc++'s
  `(b - a) * generate_canonical<float, 24>(g) + a`, and for a 32-bit engine
  `generate_canonical<float, 24>` is one word divided by `2^32`.
* `std::clamp(v, lo, hi)` is libc++'s `v < lo ? lo : hi < v ? hi : v`.
* A range-`for` over a `std::vector` is a recursion over a `List`.
* The assignments of scale and opacity (lines 51 and 52) are embedded a second time in
  binary32 (`ScaleF32`, `OpacityF32`), since their bounds depend on rounding.
-/

/-! ## Library layer -/

/-- The `<cmath>` functions used by the sources. -/
structure Libm (K : Type) where
  /-- The function `std::cos`. -/
  cos : K → K
  /-- The function `std::sin`. -/
  sin : K → K
  /-- The function `std::exp`. -/
  exp : K → K
  /-- The function `std::sqrt`. -/
  sqrt : K → K

/-- The real-valued instance of the `<cmath>` record. -/
noncomputable def realLibm : Libm ℝ :=
  ⟨Real.cos, Real.sin, Real.exp, Real.sqrt⟩

/-- The engine `std::mt19937`: the words it will output, and how many were consumed. -/
structure Mt19937 where
  /-- The output stream fixed by the seed. -/
  out : Nat → Nat
  /-- The number of words already drawn. -/
  pos : Nat

namespace Mt19937

/-- One call `rng()`: a 32-bit word, and the advanced engine. -/
def next (g : Mt19937) : Nat × Mt19937 :=
  (g.out g.pos % 2 ^ 32, { g with pos := g.pos + 1 })

end Mt19937

section Generic

variable {K : Type} [LinearOrderedField K]

/-- The call `generate_canonical<float, 24>(rng)`: one word scaled into `[0, 1)`. -/
def generateCanonical (g : Mt19937) : K × Mt19937 :=
  (((g.next.1 : Nat) : K) / 4294967296, g.next.2)

/-- A draw `dist(rng)` from `std::uniform_real_distribution<float> dist(a, b)`. -/
def uniformReal (a b : K) (g : Mt19937) : K × Mt19937 :=
  ((b - a) * (generateCanonical g).1 + a, (generateCanonical g : K × Mt19937).2)

/-- The function `std::clamp(v, lo, hi)`. -/
def clamp (v lo hi : K) : K :=
  if v < lo then lo else if hi < v then hi else v

end Generic

/-! ## `AboutAnimations.cpp` / `FooterAnimations.cpp` : the drifting flowers -/

/-- The records `AboutFlower` (About) and `Flower` (Footer): same fields in both files. -/
structure Flower (K : Type) where
  x : K
  y : K
  z : K
  vx : K
  vy : K
  rot : K
  scale : K
  time : K
  id : Int
  color : Int

/-- The record `AboutFlower` of `AboutAnimations.cpp`. -/
abbrev AboutFlower (K : Type) := Flower K

/-- One record pushed by `getData` of the flower systems. -/
structure FlowerData (K : Type) where
  id : Int
  x : K
  y : K
  z : K
  rotation : K
  scale : K
  color : Int

namespace Flower

variable {K : Type} [LinearOrderedField K]

/-- The constructor `Flower(int i)` / `AboutFlower(int i)`. -/
def new (i : Int) : Flower K :=
  { x := 0, y := 0, z := 0, vx := 0, vy := 0, rot := 0, scale := 1, time := 0,
    id := i, color := Int.tmod i 6 }

/-- The record `getData` builds for one flower. -/
def data (flower : Flower K) : FlowerData K :=
  { id := flower.id, x := flower.x, y := flower.y, z := flower.z,
    rotation := flower.rot, scale := flower.scale, color := flower.color }

end Flower

/-- The class `AboutAnimationSystem`. -/
structure AboutAnimationSystem (K : Type) where
  flowers : List (AboutFlower K)
  rng : Mt19937
  width : K
  height : K

namespace AboutAnimationSystem

variable {K : Type} [LinearOrderedField K]

/-- The method `setDimensions`. -/
def setDimensions (s : AboutAnimationSystem K) (w h : K) : AboutAnimationSystem K :=
  { s with width := w, height := h }

/-- The body of the loop of `init` for index `i`: six draws and a raw word, then `push_back`. -/
def initStep (width height : K) (acc : List (AboutFlower K) × Mt19937) (i : Nat) :
    List (AboutFlower K) × Mt19937 :=
  let flower : AboutFlower K := Flower.new (i : Int)
  let rx := uniformReal (-width / 100.0) (width / 100.0) acc.2
  let flower := { flower with x := rx.1 }
  let ry := uniformReal (-height / 100.0) (height / 100.0) rx.2
  let flower := { flower with y := ry.1 }
  let rz := uniformReal (0.0 : K) 3.0 ry.2
  let flower := { flower with z := rz.1 }
  let rs := uniformReal (0.4 : K) 0.8 rz.2
  let flower := { flower with scale := rs.1 }
  let rvx := uniformReal (-0.005 : K) 0.005 rs.2
  let flower := { flower with vx := rvx.1 }
  let rvy := uniformReal (-0.005 : K) 0.005 rvx.2
  let flower := { flower with vy := rvy.1 * 0.3 }
  let rr := rvy.2.next
  let flower := { flower with rot := ((rr.1 % 360 : Nat) : K) }
  (acc.1 ++ [flower], rr.2)

/-- The method `init`: `flowers.clear()`, then the loop `for (int i = 0; i < 12; i++)`. -/
def init (s : AboutAnimationSystem K) : AboutAnimationSystem K :=
  let r := (List.range 12).foldl (initStep s.width s.height) ([], s.rng)
  { s with flowers := r.1, rng := r.2 }

/-- The body of the loop of `update`, for one flower. -/
def updateFlower (m : Libm K) (width height dt : K) (flower : AboutFlower K) : AboutFlower K :=
  let time := flower.time + dt
  let x := flower.x + (flower.vx + m.cos (time * 0.3 + (flower.id : K)) * 0.002)
  let y := flower.y + (flower.vy + m.sin (time * 1.5 + (flower.id : K)) * 0.003)
  let rot := flower.rot + 8.0 * dt
  let boundary := width / 100.0 + 2.0
  let x := if x > boundary then -boundary else x
  let x := if x < -boundary then boundary else x
  let yBoundary := height / 80.0
  let y := if y > yBoundary then -yBoundary else y
  let y := if y < -yBoundary then yBoundary else y
  { flower with time := time, x := x, y := y, rot := rot }

/-- The method `update`. -/
def update (m : Libm K) (s : AboutAnimationSystem K) (dt : K) : AboutAnimationSystem K :=
  { s with flowers := s.flowers.map (updateFlower m s.width s.height dt) }

/-- The method `getData`. -/
def getData (s : AboutAnimationSystem K) : List (FlowerData K) :=
  s.flowers.map Flower.data

/-- The method `resize`. -/
def resize (s : AboutAnimationSystem K) (w h : K) : AboutAnimationSystem K :=
  let sx := w / s.width
  let sy := h / s.height
  let s' := s.setDimensions w h
  { s' with flowers := s'.flowers.map (fun flower =>
      { flower with x := flower.x * sx, y := flower.y * sy }) }

/-- The method `clear`. -/
def clear (s : AboutAnimationSystem K) : AboutAnimationSystem K :=
  { s with flowers := [] }

/-- The exported `aboutInit`. -/
def aboutInit (s : AboutAnimationSystem K) (w h : K) : AboutAnimationSystem K :=
  (s.setDimensions w h).init

end AboutAnimationSystem

/-- The class `FooterAnimationSystem`. -/
structure FooterAnimationSystem (K : Type) where
  flowers : List (Flower K)
  rng : Mt19937
  width : K
  height : K

namespace FooterAnimationSystem

variable {K : Type} [LinearOrderedField K]

/-- The method `setDimensions`. -/
def setDimensions (s : FooterAnimationSystem K) (w h : K) : FooterAnimationSystem K :=
  { s with width := w, height := h }

/-- The body of the loop of `init` for index `i`: six draws and a raw word, then `push_back`. -/
def initStep (width height : K) (acc : List (Flower K) × Mt19937) (i : Nat) :
    List (Flower K) × Mt19937 :=
  let flower : Flower K := Flower.new (i : Int)
  let rx := uniformReal (-width / 200.0) (width / 200.0) acc.2
  let flower := { flower with x := rx.1 }
  let ry := uniformReal (-height / 200.0) (height / 200.0) rx.2
  let flower := { flower with y := ry.1 }
  let rz := uniformReal (0.0 : K) 2.0 ry.2
  let flower := { flower with z := rz.1 }
  let rs := uniformReal (0.3 : K) 0.7 rz.2
  let flower := { flower with scale := rs.1 }
  let rvx := uniformReal (-0.003 : K) 0.003 rs.2
  let flower := { flower with vx := rvx.1 }
  let rvy := uniformReal (-0.003 : K) 0.003 rvx.2
  let flower := { flower with vy := rvy.1 * 0.5 }
  let rr := rvy.2.next
  let flower := { flower with rot := ((rr.1 % 360 : Nat) : K) }
  (acc.1 ++ [flower], rr.2)

/-- The method `init`: `flowers.clear()`, then the loop `for (int i = 0; i < 6; i++)`. -/
def init (s : FooterAnimationSystem K) : FooterAnimationSystem K :=
  let r := (List.range 6).foldl (initStep s.width s.height) ([], s.rng)
  { s with flowers := r.1, rng := r.2 }

/-- The body of the loop of `update`, for one flower. -/
def updateFlower (m : Libm K) (width height dt : K) (flower : Flower K) : Flower K :=
  let time := flower.time + dt
  let x := flower.x + (flower.vx + m.cos (time * 0.5 + (flower.id : K)) * 0.003)
  let y := flower.y + (flower.vy + m.sin (time * 2.0 + (flower.id : K)) * 0.005)
  let rot := flower.rot + 10.0 * dt
  let boundary := width / 200.0 + 1.0
  let x := if x > boundary then -boundary else x
  let x := if x < -boundary then boundary else x
  let yBoundary := height / 200.0
  let y := if y > yBoundary then -yBoundary else y
  let y := if y < -yBoundary then yBoundary else y
  { flower with time := time, x := x, y := y, rot := rot }

/-- The method `update`. -/
def update (m : Libm K) (s : FooterAnimationSystem K) (dt : K) : FooterAnimationSystem K :=
  { s with flowers := s.flowers.map (updateFlower m s.width s.height dt) }

/-- The method `getData`. -/
def getData (s : FooterAnimationSystem K) : List (FlowerData K) :=
  s.flowers.map Flower.data

/-- The method `resize`. -/
def resize (s : FooterAnimationSystem K) (w h : K) : FooterAnimationSystem K :=
  let sx := w / s.width
  let sy := h / s.height
  let s' := s.setDimensions w h
  { s' with flowers := s'.flowers.map (fun flower =>
      { flower with x := flower.x * sx, y := flower.y * sy }) }

/-- The method `clear`. -/
def clear (s : FooterAnimationSystem K) : FooterAnimationSystem K :=
  { s with flowers := [] }

/-- The exported `footerInit`. -/
def footerInit (s : FooterAnimationSystem K) (w h : K) : FooterAnimationSystem K :=
  (s.setDimensions w h).init

end FooterAnimationSystem

/-! ## `FloatingAnimations.cpp` : the seeking icons -/

/-- The record `Icon`. -/
structure Icon (K : Type) where
  x : K
  y : K
  tx : K
  ty : K
  rot : K
  scale : K
  opacity : K
  time : K
  id : Int

/-- One record pushed by `AnimationSystem::getData`. -/
structure IconData (K : Type) where
  id : Int
  x : K
  y : K
  rotation : K
  scale : K
  opacity : K

namespace Icon

variable {K : Type} [LinearOrderedField K]

/-- The constructor `Icon(int i, float px, float py)`. -/
def new (i : Int) (px py : K) : Icon K :=
  { x := px, y := py, tx := px, ty := py, rot := 0, scale := 1, opacity := 0.3, time := 0,
    id := i }

/-- The record `getData` builds for one icon. -/
def data (icon : Icon K) : IconData K :=
  { id := icon.id, x := icon.x, y := icon.y, rotation := icon.rot, scale := icon.scale,
    opacity := icon.opacity }

end Icon

/-- The class `AnimationSystem`.  Its member `pad` has the initialiser `100.0f` and is
assigned nowhere: it is the constant `AnimationSystem.pad`. -/
structure AnimationSystem (K : Type) where
  icons : List (Icon K)
  rng : Mt19937
  vw : K
  vh : K

namespace AnimationSystem

variable {K : Type} [LinearOrderedField K]

/-- The member `pad = 100.0f`. -/
def pad : K := 100.0

/-- The method `setViewport`. -/
def setViewport (s : AnimationSystem K) (w h : K) : AnimationSystem K :=
  { s with vw := w, vh := h }

/-- The method `newTarget`, on one icon and the engine: `xd(rng)` is drawn before `yd(rng)`. -/
def newTarget (vw vh : K) (icon : Icon K) (g : Mt19937) : Icon K × Mt19937 :=
  let rx := uniformReal pad (vw - pad) g
  let ry := uniformReal pad (vh - pad) rx.2
  ({ icon with tx := rx.1, ty := ry.1 }, ry.2)

/-- The method `addIcon`. -/
def addIcon (s : AnimationSystem K) (id : Int) (x y : K) : AnimationSystem K :=
  let icon := Icon.new id x y
  let r1 := uniformReal (0.6 : K) 1.0 s.rng
  let icon := { icon with scale := r1.1 }
  let r2 := uniformReal (0.6 : K) 1.0 r1.2
  let icon := { icon with rot := r2.1 * 360.0 }
  let r3 := uniformReal (0.6 : K) 1.0 r2.2
  let icon := { icon with opacity := 0.3 + r3.1 * 0.4 }
  let r := newTarget s.vw s.vh icon r3.2
  { s with icons := s.icons ++ [r.1], rng := r.2 }

/-- The body of the loop of `update`, for one icon and the engine. -/
def updateIcon (m : Libm K) (vw vh dt : K) (icon : Icon K) (g : Mt19937) :
    Icon K × Mt19937 :=
  let icon := { icon with time := icon.time + dt }
  let dx := icon.tx - icon.x
  let dy := icon.ty - icon.y
  let dist := m.sqrt (dx * dx + dy * dy)
  let r : Icon K × Mt19937 :=
    if dist > 5.0 then
      let t := 1.0 - m.exp (-0.02 * dt * 60.0)
      ({ icon with x := icon.x + dx * t, y := icon.y + dy * t }, g)
    else newTarget vw vh icon g
  let icon := r.1
  let icon := { icon with rot := icon.rot + ((icon.id : K) * 10.0 - 50.0) * dt }
  let icon := { icon with scale := 0.7 + 0.3 * m.sin (icon.time * (0.5 + (icon.id : K) * 0.1)) }
  let icon :=
    { icon with opacity := 0.2 + 0.3 * m.sin (icon.time * (0.3 + (icon.id : K) * 0.05)) }
  let icon := { icon with x := clamp icon.x pad (vw - pad) }
  let icon := { icon with y := clamp icon.y pad (vh - pad) }
  (icon, r.2)

/-- The loop of `update`: the icons in order, the engine threaded through. -/
def updateIcons (m : Libm K) (vw vh dt : K) : List (Icon K) → Mt19937 → List (Icon K) × Mt19937
  | [], g => ([], g)
  | icon :: rest, g =>
    let r := updateIcon m vw vh dt icon g
    let rs := updateIcons m vw vh dt rest r.2
    (r.1 :: rs.1, rs.2)

/-- The method `update`. -/
def update (m : Libm K) (s : AnimationSystem K) (dt : K) : AnimationSystem K :=
  let r := updateIcons m s.vw s.vh dt s.icons s.rng
  { s with icons := r.1, rng := r.2 }

/-- The method `getData`. -/
def getData (s : AnimationSystem K) : List (IconData K) :=
  s.icons.map Icon.data

/-- The body of the loop of `scroll`, for one icon. -/
def scrollIcon (progress : K) (icon : Icon K) : Icon K :=
  let speed := 0.2 + (icon.id : K) * 0.1
  { icon with
    y := icon.y + progress * speed * 50.0 * 0.016
    rot := icon.rot + progress * ((icon.id + 1 : Int) : K) * 2.0 * 0.016 }

/-- The method `scroll`. -/
def scroll (s : AnimationSystem K) (progress : K) : AnimationSystem K :=
  { s with icons := s.icons.map (scrollIcon progress) }

/-- The body of the loop of `resize`, for one icon. -/
def resizeIcon (sx sy w h : K) (icon : Icon K) : Icon K :=
  { icon with
    x := clamp (icon.x * sx) pad (w - pad)
    y := clamp (icon.y * sy) pad (h - pad)
    tx := clamp (icon.tx * sx) pad (w - pad)
    ty := clamp (icon.ty * sy) pad (h - pad) }

/-- The method `resize`. -/
def resize (s : AnimationSystem K) (w h : K) : AnimationSystem K :=
  let sx := w / s.vw
  let sy := h / s.vh
  let s' := s.setViewport w h
  { s' with icons := s'.icons.map (resizeIcon sx sy w h) }

/-- The method `clear`. -/
def clear (s : AnimationSystem K) : AnimationSystem K :=
  { s with icons := [] }

end AnimationSystem

namespace Icon

variable {K : Type} [LinearOrderedField K]

/-- The quantity `dist` of `update`: `sqrt(dx*dx + dy*dy)` with `dx = tx - x`, `dy = ty - y`. -/
def distance (m : Libm K) (icon : Icon K) : K :=
  m.sqrt ((icon.tx - icon.x) * (icon.tx - icon.x) + (icon.ty - icon.y) * (icon.ty - icon.y))

end Icon

namespace AnimationSystem

variable {K : Type} [LinearOrderedField K]

/-- The quantity `t` of `update`: `1.0f - std::exp(-0.02f * dt * 60.0f)`. -/
def easing (m : Libm K) (dt : K) : K :=
  1.0 - m.exp (-0.02 * dt * 60.0)

end AnimationSystem

/-! ## The exported entry points of `FloatingAnimations.cpp` as a transition system -/

/-- One call of the `extern "C"` block: `init`, `add`, `update`, `scroll`, `resize`, `clear`. -/
inductive Call (K : Type) where
  | init (w h : K)
  | add (id : Int) (x y : K)
  | update (dt : K)
  | scroll (p : K)
  | resize (w h : K)
  | clear

namespace Call

/-- The calls whose loop ends by clamping every icon: `update` and `resize`. -/
def clamps {K : Type} : Call K → Bool
  | update _ => true
  | resize _ _ => true
  | _ => false

end Call

namespace AnimationSystem

variable {K : Type} [LinearOrderedField K]

/-- The effect of one exported call on the system object `sys`. -/
def step (m : Libm K) (s : AnimationSystem K) : Call K → AnimationSystem K
  | Call.init w h => s.setViewport w h
  | Call.add id x y => s.addIcon id x y
  | Call.update dt => s.update m dt
  | Call.scroll p => s.scroll p
  | Call.resize w h => s.resize w h
  | Call.clear => s.clear

/-- The effect of a sequence of exported calls, first call first. -/
def run (m : Libm K) (s : AnimationSystem K) (calls : List (Call K)) : AnimationSystem K :=
  calls.foldl (step m) s

/-- The point `(x, y)` lies in the padded rectangle `[pad, vw - pad] × [pad, vh - pad]`. -/
def inPaddedRect (vw vh x y : K) : Prop :=
  pad ≤ x ∧ x ≤ vw - pad ∧ pad ≤ y ∧ y ≤ vh - pad

instance (vw vh x y : K) : Decidable (inPaddedRect vw vh x y) := by
  unfold inPaddedRect
  infer_instance

/-- The system object before any call: static storage, so no icons and a zero viewport. -/
def empty (g : Mt19937) : AnimationSystem K :=
  ⟨[], g, 0, 0⟩

end AnimationSystem

namespace AnimationSystem

variable {K : Type} [LinearOrderedField K]

/-- Every `resize` of the sequence is called while the stored width and height are both
non-zero, so that no scale factor `w / vw`, `h / vh` of the run divides by zero. (The
source divides floats: from a zero viewport it produces `inf` and `0 * inf = NaN`, which
`std::clamp` returns unchanged; the field convention `a / 0 = 0` says nothing there.) -/
def resizesDefined (m : Libm K) : AnimationSystem K → List (Call K) → Bool
  | _, [] => true
  | s, c :: rest =>
    (match c with
      | Call.resize _ _ => decide (s.vw ≠ 0 ∧ s.vh ≠ 0)
      | _ => true) && resizesDefined m (step m s c) rest

end AnimationSystem

namespace Call

/-- The ids handed to `add` since the last `clear`, after one more call: `add` appends its
id, `clear` forgets everything, the other calls leave the sequence alone. -/
def idsAfter {K : Type} (ids : List Int) : Call K → List Int
  | add id _ _ => ids ++ [id]
  | clear => []
  | _ => ids

/-- The ids handed to `add` since the last `clear` in a sequence of calls, in call order. -/
def addedIds {K : Type} (calls : List (Call K)) : List Int :=
  calls.foldl idsAfter []

end Call

namespace Icon

/-- An icon with its target forgotten: every field but `tx`, `ty`. -/
def eraseTarget {K : Type} [Zero K] (icon : Icon K) : Icon K :=
  { icon with tx := 0, ty := 0 }

end Icon

namespace AnimationSystem

variable {K : Type} [LinearOrderedField K]

/-- Every icon has its target in the padded rectangle of the stored viewport. -/
def targetsInRect (s : AnimationSystem K) : Prop :=
  ∀ icon ∈ s.icons, inPaddedRect s.vw s.vh icon.tx icon.ty

end AnimationSystem

/-! ## Lines 39, 51 and 52 of `FloatingAnimations.cpp` in binary32

The bounds of scale and opacity are decided by the rounding of `float`, which the ordered
field above does not show. These two assignments are therefore also embedded with every
operation rounded to a nearest binary32 value. Rounding is a relation: ties are left open,
overflow and the value returned by `std::sin` are not fixed by the source. -/

section Binary32

variable {K : Type} [LinearOrderedField K]

/-- The number `x` is a finite binary32 value: `m * 2^e` with `e ≤ 104`, or `m / 2^e` with
`e ≤ 149`, for an integer `m` with `|m| < 2^24`. -/
def IsF32 (x : K) : Prop :=
  ∃ (m : Int) (e : Nat), |m| < 2 ^ 24 ∧
    ((e ≤ 104 ∧ x = (m : K) * 2 ^ e) ∨ (e ≤ 149 ∧ x = (m : K) / 2 ^ e))

/-- The binary32 value `y` is nearest to `x`: what one `float` operation with exact
result `x` may return (round to nearest; a tie admits both neighbours). -/
def RoundsTo (x y : K) : Prop :=
  IsF32 y ∧ ∀ z : K, IsF32 z → |x - y| ≤ |x - z|

/-- The literal `0.7f`. -/
def f32_0_7 : K := 11744051 / 2 ^ 24

/-- The literal `0.3f`. -/
def f32_0_3 : K := 10066330 / 2 ^ 25

/-- The literal `0.2f`. -/
def f32_0_2 : K := 13421773 / 2 ^ 26

/-- The literal `0.1f`. -/
def f32_0_1 : K := 13421773 / 2 ^ 27

/-- The literal `0.05f`. -/
def f32_0_05 : K := 13421773 / 2 ^ 28

/-- The literal `0.5f`. -/
def f32_0_5 : K := 1 / 2

/-- The expression `c0 + 0.3f * sv` of lines 51 and 52, `sv` being the value returned by
`std::sin`: the product is rounded, then the sum. -/
def AffineF32 (c0 sv r : K) : Prop :=
  ∃ p, RoundsTo (f32_0_3 * sv) p ∧ RoundsTo (c0 + p) r

/-- The argument `icon.time * (c + icon.id * d)` of `std::sin` in lines 51 and 52: the
`int` is converted, then product, sum and product are rounded. -/
def SinArgF32 (c d : K) (id : Int) (time a : K) : Prop :=
  ∃ idf t1 t2, RoundsTo (id : K) idf ∧ RoundsTo (idf * d) t1 ∧ RoundsTo (c + t1) t2 ∧
    RoundsTo (time * t2) a

/-- Lines 39 and 51: `icon.time += dt` and
`icon.scale = 0.7f + 0.3f * std::sin(icon.time * (0.5f + icon.id * 0.1f))`, for a sine
given as a relation between argument and returned value. -/
def ScaleF32 (sinF : K → K → Prop) (id : Int) (time dt scale : K) : Prop :=
  ∃ time' a sv, RoundsTo (time + dt) time' ∧ SinArgF32 f32_0_5 f32_0_1 id time' a ∧
    sinF a sv ∧ AffineF32 f32_0_7 sv scale

/-- Lines 39 and 52: `icon.time += dt` and
`icon.opacity = 0.2f + 0.3f * std::sin(icon.time * (0.3f + icon.id * 0.05f))`, for a sine
given as a relation between argument and returned value. -/
def OpacityF32 (sinF : K → K → Prop) (id : Int) (time dt opacity : K) : Prop :=
  ∃ time' a sv, RoundsTo (time + dt) time' ∧ SinArgF32 f32_0_3 f32_0_05 id time' a ∧
    sinF a sv ∧ AffineF32 f32_0_2 sv opacity

/-- The binary32 value nearest to `3π/2`: `4.71238899230957...`. -/
def dtNearThreeHalvesPi : K := 9882596 / 2 ^ 21

end Binary32

/-- A `std::sin` that returns a binary32 value nearest to the real sine. -/
def sinNearest (a sv : ℝ) : Prop := RoundsTo (Real.sin a) sv

/-! ## Concrete states used to instantiate the statements -/

section Samples

variable {K : Type} [LinearOrderedField K]

/-- A seeded engine: the stream of words `0, 2^30, 2 * 2^30, 3 * 2^30, 0, ...`, nothing
drawn yet; the canonical draws are `0, 1/4, 1/2, 3/4, 0, ...`. -/
def sampleRng : Mt19937 :=
  ⟨fun n => 2 ^ 30 * (n % 4), 0⟩

/-- A flower at `(3, 9)`, at rest, with `time = 0`. -/
def sampleFlower : Flower K :=
  { x := 3, y := 9, z := 1, vx := 0, vy := 0, rot := 0, scale := 0.5, time := 0,
    id := 0, color := 0 }

/-- The About system holding `sampleFlower`, with dimensions `1000 × 800`. -/
def sampleAbout : AboutAnimationSystem K :=
  ⟨[sampleFlower], sampleRng, 1000, 800⟩

/-- The Footer system holding `sampleFlower`, with dimensions `1000 × 800`. -/
def sampleFooter : FooterAnimationSystem K :=
  ⟨[sampleFlower], sampleRng, 1000, 800⟩

/-- The icon system with the viewport `100 × 100` and one icon created at `(50, 50)`. -/
def smallViewport : AnimationSystem K :=
  ⟨[Icon.new 0 50 50], sampleRng, 100, 100⟩

/-- The icon system with the viewport `800 × 600` and one icon created at `(400, 300)`. -/
def sampleSeek : AnimationSystem K :=
  ⟨[Icon.new 0 400 300], sampleRng, 800, 600⟩

/-- The scenario `configure(800, 600); addParticle(0, 400, 300)` from the empty system. -/
def seekScenario : AnimationSystem K :=
  ((AnimationSystem.empty sampleRng).setViewport 800 600).addIcon 0 400 300

/-- The scenario `configure(800, 600); addParticle(0, 0, 0)` from the empty system. -/
def cornerScenario : AnimationSystem K :=
  ((AnimationSystem.empty sampleRng).setViewport 800 600).addIcon 0 0 0

/-- The Footer system `200 × 200` with one flower on the `x` boundary: `x = 2 = 200/200 + 1`. -/
def edgeFooter : FooterAnimationSystem K :=
  ⟨[{ (sampleFlower : Flower K) with x := 2, y := 0 }], sampleRng, 200, 200⟩

/-- The viewport `800 × 600` with two icons created at `(400, 300)`, ids `0` then `1`; each
sits on its target. -/
def twinAB : AnimationSystem K :=
  ⟨[Icon.new 0 400 300, Icon.new 1 400 300], sampleRng, 800, 600⟩

/-- The system `twinAB` with its two icons in the other order. -/
def twinBA : AnimationSystem K :=
  ⟨[Icon.new 1 400 300, Icon.new 0 400 300], sampleRng, 800, 600⟩

end Samples

/-! ## Shared facts -/

section Facts

variable {K : Type} [LinearOrderedField K]

theorem generateCanonical_nonneg (g : Mt19937) :
    (0 : K) ≤ (generateCanonical g : K × Mt19937).1 := by
  unfold generateCanonical
  positivity

theorem generateCanonical_lt_one (g : Mt19937) :
    (generateCanonical g : K × Mt19937).1 < 1 := by
  unfold generateCanonical Mt19937.next
  rw [div_lt_one (by norm_num)]
  have h : g.out g.pos % 2 ^ 32 < 4294967296 := Nat.mod_lt _ (by norm_num)
  exact_mod_cast h

theorem uniformReal_mem (a b : K) (hab : a ≤ b) (g : Mt19937) :
    a ≤ (uniformReal a b g).1 ∧ (uniformReal a b g).1 ≤ b := by
  have h0 : (0 : K) ≤ (generateCanonical g : K × Mt19937).1 := generateCanonical_nonneg g
  have h1 : (generateCanonical g : K × Mt19937).1 < 1 := generateCanonical_lt_one g
  have hba : 0 ≤ b - a := sub_nonneg.mpr hab
  simp only [uniformReal]
  constructor
  · nlinarith [mul_nonneg hba h0]
  · nlinarith [mul_nonneg hba (sub_nonneg.mpr h1.le)]

theorem clamp_mem (v lo hi : K) (h : lo ≤ hi) : lo ≤ clamp v lo hi ∧ clamp v lo hi ≤ hi := by
  unfold clamp
  split_ifs <;> constructor <;> linarith

theorem clamp_eq_self (v lo hi : K) (h1 : lo ≤ v) (h2 : v ≤ hi) : clamp v lo hi = v := by
  unfold clamp
  rw [if_neg (not_lt.mpr h1), if_neg (not_lt.mpr h2)]

end Facts

/-! ## Lemmas on the loops -/

section Loops

variable {K : Type} [LinearOrderedField K]

theorem AboutAnimationSystem.aboutFlower_x_mem (m : Libm K) (width height dt : K)
    (flower : AboutFlower K) (hw : 0 < width) :
    -(width / 100 + 2) ≤ (updateFlower m width height dt flower).x ∧
      (updateFlower m width height dt flower).x ≤ width / 100 + 2 := by
  have hb : (0 : K) < width / 100 + 2 := by positivity
  simp only [updateFlower]
  norm_num
  split_ifs <;> constructor <;> linarith

theorem FooterAnimationSystem.footerFlower_x_mem (m : Libm K) (width height dt : K)
    (flower : Flower K) (hw : 0 < width) :
    -(width / 200 + 1) ≤ (updateFlower m width height dt flower).x ∧
      (updateFlower m width height dt flower).x ≤ width / 200 + 1 := by
  have hb : (0 : K) < width / 200 + 1 := by positivity
  simp only [updateFlower]
  norm_num
  split_ifs <;> constructor <;> linarith

theorem AboutAnimationSystem.aboutFlower_y_mem (m : Libm K) (width height dt : K)
    (flower : AboutFlower K) (hh : 0 < height) :
    -(height / 80) ≤ (updateFlower m width height dt flower).y ∧
      (updateFlower m width height dt flower).y ≤ height / 80 := by
  have hb : (0 : K) < height / 80 := by positivity
  simp only [updateFlower]
  norm_num
  split_ifs <;> constructor <;> linarith

theorem FooterAnimationSystem.footerFlower_y_mem (m : Libm K) (width height dt : K)
    (flower : Flower K) (hh : 0 < height) :
    -(height / 200) ≤ (updateFlower m width height dt flower).y ∧
      (updateFlower m width height dt flower).y ≤ height / 200 := by
  have hb : (0 : K) < height / 200 := by positivity
  simp only [updateFlower]
  norm_num
  split_ifs <;> constructor <;> linarith

end Loops

/-! ## C1 : wrap invariant on `x` -/

/-- C1. After `update(dt)` with a stored width `> 0`, every flower has
`-boundary ≤ x ≤ boundary`, where `boundary = width/100 + 2` in the About system and
`width/200 + 1` in the Footer system; the stored width is the one before the call. -/
theorem driftField_wrap_x {K : Type} [LinearOrderedField K] (m : Libm K)
    (a : AboutAnimationSystem K) (b : FooterAnimationSystem K) (dt : K)
    (ha : 0 < a.width) (hb : 0 < b.width) :
    ((a.update m dt).width = a.width ∧
      ∀ f ∈ (a.update m dt).flowers, -(a.width / 100 + 2) ≤ f.x ∧ f.x ≤ a.width / 100 + 2) ∧
    ((b.update m dt).width = b.width ∧
      ∀ f ∈ (b.update m dt).flowers, -(b.width / 200 + 1) ≤ f.x ∧ f.x ≤ b.width / 200 + 1) := by
  refine ⟨⟨rfl, ?_⟩, ⟨rfl, ?_⟩⟩
  · intro f hf
    simp only [AboutAnimationSystem.update, List.mem_map] at hf
    obtain ⟨f0, -, rfl⟩ := hf
    exact AboutAnimationSystem.aboutFlower_x_mem m _ _ dt f0 ha
  · intro f hf
    simp only [FooterAnimationSystem.update, List.mem_map] at hf
    obtain ⟨f0, -, rfl⟩ := hf
    exact FooterAnimationSystem.footerFlower_x_mem m _ _ dt f0 hb

/-- C1 at the sample systems (`1000 × 800`, one frame of `1/60`), over the reals. -/
theorem driftField_wrap_x_witness :
    (0 : ℝ) < (sampleAbout : AboutAnimationSystem ℝ).width ∧
    (0 : ℝ) < (sampleFooter : FooterAnimationSystem ℝ).width ∧
    (((sampleAbout : AboutAnimationSystem ℝ).update realLibm (1 / 60)).width
        = (sampleAbout : AboutAnimationSystem ℝ).width ∧
      ∀ f ∈ ((sampleAbout : AboutAnimationSystem ℝ).update realLibm (1 / 60)).flowers,
        -((sampleAbout : AboutAnimationSystem ℝ).width / 100 + 2) ≤ f.x ∧
          f.x ≤ (sampleAbout : AboutAnimationSystem ℝ).width / 100 + 2) ∧
    (((sampleFooter : FooterAnimationSystem ℝ).update realLibm (1 / 60)).width
        = (sampleFooter : FooterAnimationSystem ℝ).width ∧
      ∀ f ∈ ((sampleFooter : FooterAnimationSystem ℝ).update realLibm (1 / 60)).flowers,
        -((sampleFooter : FooterAnimationSystem ℝ).width / 200 + 1) ≤ f.x ∧
          f.x ≤ (sampleFooter : FooterAnimationSystem ℝ).width / 200 + 1) :=
  ⟨by norm_num [sampleAbout], by norm_num [sampleFooter],
    driftField_wrap_x realLibm sampleAbout sampleFooter (1 / 60)
      (by norm_num [sampleAbout]) (by norm_num [sampleFooter])⟩

/-! ## C2 : wrap invariant on `y` -/

/-- C2, refuted as stated for the About system: with height `800` a flower resting at
`y = 9` stays at `9 + 0.003 * sin(..)`, which exceeds `height/100 = 8`
(the wrap boundary of the code is `height/80 = 10`). -/
theorem driftField_wrap_y_counterexample :
    (0 : ℝ) < (sampleAbout : AboutAnimationSystem ℝ).height ∧
    ¬ (∀ f ∈ ((sampleAbout : AboutAnimationSystem ℝ).update realLibm (1 / 60)).flowers,
        -((sampleAbout : AboutAnimationSystem ℝ).height / 100) ≤ f.y ∧
          f.y ≤ (sampleAbout : AboutAnimationSystem ℝ).height / 100) := by
  refine ⟨by norm_num [sampleAbout], ?_⟩
  intro h
  have h1 := (h _ (List.mem_singleton_self _)).2
  simp only [sampleAbout, sampleFlower, AboutAnimationSystem.updateFlower, realLibm] at h1
  have hs := Real.neg_one_le_sin ((0 + 1 / 60) * 1.5 + ((0 : Int) : ℝ))
  have hs' := Real.sin_le_one ((0 + 1 / 60) * 1.5 + ((0 : Int) : ℝ))
  norm_num at h1 hs hs'
  split_ifs at h1 <;> linarith

/-- C2, amended. After `update(dt)` with a stored height `> 0`, every flower has
`-yBoundary ≤ y ≤ yBoundary`, where `yBoundary = height/80` in the About system and
`height/200` in the Footer system. -/
theorem driftField_wrap_y {K : Type} [LinearOrderedField K] (m : Libm K)
    (a : AboutAnimationSystem K) (b : FooterAnimationSystem K) (dt : K)
    (ha : 0 < a.height) (hb : 0 < b.height) :
    ((a.update m dt).height = a.height ∧
      ∀ f ∈ (a.update m dt).flowers, -(a.height / 80) ≤ f.y ∧ f.y ≤ a.height / 80) ∧
    ((b.update m dt).height = b.height ∧
      ∀ f ∈ (b.update m dt).flowers, -(b.height / 200) ≤ f.y ∧ f.y ≤ b.height / 200) := by
  refine ⟨⟨rfl, ?_⟩, ⟨rfl, ?_⟩⟩
  · intro f hf
    simp only [AboutAnimationSystem.update, List.mem_map] at hf
    obtain ⟨f0, -, rfl⟩ := hf
    exact AboutAnimationSystem.aboutFlower_y_mem m _ _ dt f0 ha
  · intro f hf
    simp only [FooterAnimationSystem.update, List.mem_map] at hf
    obtain ⟨f0, -, rfl⟩ := hf
    exact FooterAnimationSystem.footerFlower_y_mem m _ _ dt f0 hb

/-- C2 (amended) at the sample systems, over the reals. -/
theorem driftField_wrap_y_witness :
    (0 : ℝ) < (sampleAbout : AboutAnimationSystem ℝ).height ∧
    (0 : ℝ) < (sampleFooter : FooterAnimationSystem ℝ).height ∧
    (((sampleAbout : AboutAnimationSystem ℝ).update realLibm (1 / 60)).height
        = (sampleAbout : AboutAnimationSystem ℝ).height ∧
      ∀ f ∈ ((sampleAbout : AboutAnimationSystem ℝ).update realLibm (1 / 60)).flowers,
        -((sampleAbout : AboutAnimationSystem ℝ).height / 80) ≤ f.y ∧
          f.y ≤ (sampleAbout : AboutAnimationSystem ℝ).height / 80) ∧
    (((sampleFooter : FooterAnimationSystem ℝ).update realLibm (1 / 60)).height
        = (sampleFooter : FooterAnimationSystem ℝ).height ∧
      ∀ f ∈ ((sampleFooter : FooterAnimationSystem ℝ).update realLibm (1 / 60)).flowers,
        -((sampleFooter : FooterAnimationSystem ℝ).height / 200) ≤ f.y ∧
          f.y ≤ (sampleFooter : FooterAnimationSystem ℝ).height / 200) :=
  ⟨by norm_num [sampleAbout], by norm_num [sampleFooter],
    driftField_wrap_y realLibm sampleAbout sampleFooter (1 / 60)
      (by norm_num [sampleAbout]) (by norm_num [sampleFooter])⟩

/-! ## C3 : clamp invariant of the icon system -/

section SeekLoops

variable {K : Type} [LinearOrderedField K]

theorem AnimationSystem.pad_le_sub_pad (v : K) (h : 200 ≤ v) :
    (AnimationSystem.pad : K) ≤ v - AnimationSystem.pad := by
  unfold AnimationSystem.pad
  norm_num
  linarith

theorem AnimationSystem.updateIcon_inPaddedRect (m : Libm K) (vw vh dt : K) (icon : Icon K)
    (g : Mt19937) (hvw : 200 ≤ vw) (hvh : 200 ≤ vh) :
    inPaddedRect vw vh (updateIcon m vw vh dt icon g).1.x (updateIcon m vw vh dt icon g).1.y := by
  simp only [updateIcon, inPaddedRect]
  exact ⟨(clamp_mem _ _ _ (pad_le_sub_pad vw hvw)).1, (clamp_mem _ _ _ (pad_le_sub_pad vw hvw)).2,
    (clamp_mem _ _ _ (pad_le_sub_pad vh hvh)).1, (clamp_mem _ _ _ (pad_le_sub_pad vh hvh)).2⟩

theorem AnimationSystem.resizeIcon_inPaddedRect (sx sy w h : K) (icon : Icon K)
    (hw : 200 ≤ w) (hh : 200 ≤ h) :
    inPaddedRect w h (resizeIcon sx sy w h icon).x (resizeIcon sx sy w h icon).y ∧
      inPaddedRect w h (resizeIcon sx sy w h icon).tx (resizeIcon sx sy w h icon).ty := by
  simp only [resizeIcon, inPaddedRect]
  exact ⟨⟨(clamp_mem _ _ _ (pad_le_sub_pad w hw)).1, (clamp_mem _ _ _ (pad_le_sub_pad w hw)).2,
    (clamp_mem _ _ _ (pad_le_sub_pad h hh)).1, (clamp_mem _ _ _ (pad_le_sub_pad h hh)).2⟩,
    ⟨(clamp_mem _ _ _ (pad_le_sub_pad w hw)).1, (clamp_mem _ _ _ (pad_le_sub_pad w hw)).2,
    (clamp_mem _ _ _ (pad_le_sub_pad h hh)).1, (clamp_mem _ _ _ (pad_le_sub_pad h hh)).2⟩⟩

/-- Each output of the loop of `update` is the loop body run on the input at the same
position, with the engine as it stands at that iteration. -/
theorem AnimationSystem.updateIcons_forall₂ (m : Libm K) (vw vh dt : K) (icons : List (Icon K)) :
    ∀ g : Mt19937, List.Forall₂ (fun old new => ∃ g', new = (updateIcon m vw vh dt old g').1)
      icons (updateIcons m vw vh dt icons g).1 := by
  induction icons with
  | nil => intro g; exact List.Forall₂.nil
  | cons icon rest ih =>
    intro g
    simp only [updateIcons]
    exact List.Forall₂.cons ⟨g, rfl⟩ (ih _)

theorem AnimationSystem.updateIcons_mem (m : Libm K) (vw vh dt : K) (icons : List (Icon K))
    (g : Mt19937) (new : Icon K) (h : new ∈ (updateIcons m vw vh dt icons g).1) :
    ∃ old ∈ icons, ∃ g', new = (updateIcon m vw vh dt old g').1 := by
  induction icons generalizing g with
  | nil => simp [updateIcons] at h
  | cons icon rest ih =>
    simp only [updateIcons, List.mem_cons] at h
    rcases h with h | h
    · exact ⟨icon, List.mem_cons_self _ _, g, h⟩
    · obtain ⟨old, ho, g', hg⟩ := ih _ h
      exact ⟨old, List.mem_cons_of_mem _ ho, g', hg⟩

theorem AnimationSystem.update_inPaddedRect (m : Libm K) (s : AnimationSystem K) (dt : K)
    (hvw : 200 ≤ s.vw) (hvh : 200 ≤ s.vh) :
    ∀ icon ∈ (s.update m dt).icons, inPaddedRect s.vw s.vh icon.x icon.y := by
  intro icon hi
  obtain ⟨old, -, g', rfl⟩ := updateIcons_mem m s.vw s.vh dt s.icons s.rng icon hi
  exact updateIcon_inPaddedRect m s.vw s.vh dt old g' hvw hvh

theorem AnimationSystem.resize_inPaddedRect (s : AnimationSystem K) (w h : K)
    (hw : 200 ≤ w) (hh : 200 ≤ h) :
    ∀ icon ∈ (s.resize w h).icons,
      inPaddedRect w h icon.x icon.y ∧ inPaddedRect w h icon.tx icon.ty := by
  intro icon hi
  simp only [resize, setViewport, List.mem_map] at hi
  obtain ⟨old, -, rfl⟩ := hi
  exact resizeIcon_inPaddedRect _ _ w h old hw hh

end SeekLoops

/-- C3, refuted as stated: with the positive viewport `100 × 100` the interval
`[pad, vw - pad] = [100, 0]` is empty, so the icon left by `update` (at `x = 100`) and the
icon left by `resize(100, 100)` are outside it. -/
theorem seekField_clamp_counterexample :
    (0 : ℝ) < (smallViewport : AnimationSystem ℝ).vw ∧
    (0 : ℝ) < (smallViewport : AnimationSystem ℝ).vh ∧
    ¬ (∀ icon ∈ ((smallViewport : AnimationSystem ℝ).update realLibm (1 / 60)).icons,
        AnimationSystem.inPaddedRect ((smallViewport : AnimationSystem ℝ).update realLibm (1 / 60)).vw
          ((smallViewport : AnimationSystem ℝ).update realLibm (1 / 60)).vh icon.x icon.y) ∧
    ¬ (∀ icon ∈ ((smallViewport : AnimationSystem ℝ).resize 100 100).icons,
        AnimationSystem.inPaddedRect ((smallViewport : AnimationSystem ℝ).resize 100 100).vw
          ((smallViewport : AnimationSystem ℝ).resize 100 100).vh icon.x icon.y) := by
  refine ⟨by norm_num [smallViewport], by norm_num [smallViewport], ?_, ?_⟩
  · intro h
    have h1 := h _ (List.mem_cons_self _ _)
    simp only [AnimationSystem.update, smallViewport, AnimationSystem.inPaddedRect,
      AnimationSystem.pad] at h1
    norm_num at h1
    linarith [h1.1, h1.2.1]
  · intro h
    have h1 := h _ (List.mem_cons_self _ _)
    simp only [AnimationSystem.resize, AnimationSystem.setViewport, smallViewport,
      AnimationSystem.inPaddedRect, AnimationSystem.pad] at h1
    norm_num at h1
    linarith [h1.1, h1.2.1]

/-- The icon that `update` leaves in the `100 × 100` viewport: it was created at `(50, 50)`
and is clamped to `(100, 100)`. -/
theorem seekField_clamp_small_viewport_value :
    (((smallViewport : AnimationSystem ℝ).update realLibm (1 / 60)).icons.map
      (fun icon => (icon.x, icon.y))) = [(100, 100)] := by
  simp [AnimationSystem.update, AnimationSystem.updateIcons, AnimationSystem.updateIcon,
    AnimationSystem.newTarget, smallViewport, Icon.new, realLibm, clamp, AnimationSystem.pad]
  norm_num

/-- C3, amended. When the stored viewport is at least `2 * pad = 200` in each dimension,
every icon lies in `[pad, vw - pad] × [pad, vh - pad]` after `update(dt)`; when the new
dimensions are at least `200`, every icon lies in the new padded rectangle after
`resize(w, h)`. The dimensions are those stored after the call. -/
theorem seekField_clamp {K : Type} [LinearOrderedField K] (m : Libm K)
    (s : AnimationSystem K) (dt w h : K)
    (hvw : 200 ≤ s.vw) (hvh : 200 ≤ s.vh) (hw : 200 ≤ w) (hh : 200 ≤ h) :
    (∀ icon ∈ (s.update m dt).icons,
        AnimationSystem.inPaddedRect (s.update m dt).vw (s.update m dt).vh icon.x icon.y) ∧
    (∀ icon ∈ (s.resize w h).icons,
        AnimationSystem.inPaddedRect (s.resize w h).vw (s.resize w h).vh icon.x icon.y) :=
  ⟨AnimationSystem.update_inPaddedRect m s dt hvw hvh,
    fun icon hi => (AnimationSystem.resize_inPaddedRect s w h hw hh icon hi).1⟩

/-- C3 (amended) at the `800 × 600` sample system, resized to `1024 × 768`. -/
theorem seekField_clamp_witness :
    (200 : ℝ) ≤ (sampleSeek : AnimationSystem ℝ).vw ∧
    (200 : ℝ) ≤ (sampleSeek : AnimationSystem ℝ).vh ∧
    (∀ icon ∈ ((sampleSeek : AnimationSystem ℝ).update realLibm (1 / 60)).icons,
        AnimationSystem.inPaddedRect ((sampleSeek : AnimationSystem ℝ).update realLibm (1 / 60)).vw
          ((sampleSeek : AnimationSystem ℝ).update realLibm (1 / 60)).vh icon.x icon.y) ∧
    (∀ icon ∈ ((sampleSeek : AnimationSystem ℝ).resize 1024 768).icons,
        AnimationSystem.inPaddedRect ((sampleSeek : AnimationSystem ℝ).resize 1024 768).vw
          ((sampleSeek : AnimationSystem ℝ).resize 1024 768).vh icon.x icon.y) :=
  ⟨by norm_num [sampleSeek], by norm_num [sampleSeek],
    seekField_clamp realLibm sampleSeek (1 / 60) 1024 768
      (by norm_num [sampleSeek]) (by norm_num [sampleSeek]) (by norm_num) (by norm_num)⟩

/-! ## C4 : the position invariant along sequences of calls -/

/-- C4, refuted as stated: from the empty system, `init(800, 600); add(0, 0, 0)` leaves an
icon at `(0, 0)`, outside `[100, 700] × [100, 500]`: `addIcon` stores the position it is
given without clamping. -/
theorem seekField_position_counterexample :
    ¬ (∀ icon ∈ (AnimationSystem.run realLibm (AnimationSystem.empty sampleRng)
          [Call.init 800 600, Call.add 0 0 0]).icons,
        AnimationSystem.inPaddedRect
          (AnimationSystem.run realLibm (AnimationSystem.empty sampleRng)
            [Call.init 800 600, Call.add 0 0 0]).vw
          (AnimationSystem.run realLibm (AnimationSystem.empty sampleRng)
            [Call.init 800 600, Call.add 0 0 0]).vh icon.x icon.y) := by
  intro h
  have h1 := (h _ (List.mem_cons_self _ _)).1
  simp only [AnimationSystem.run, List.foldl, AnimationSystem.step, AnimationSystem.addIcon,
    AnimationSystem.newTarget, AnimationSystem.setViewport, AnimationSystem.empty,
    List.nil_append, Icon.new, AnimationSystem.pad] at h1
  norm_num at h1

/-- C4, amended. In every state reached by a sequence of calls in which every `resize` is
called with a non-zero stored viewport, and whose last call is `update` or `resize`, with
a stored viewport then at least `200` in each dimension, or whose last call is `clear`,
every icon lies in `[pad, vw - pad] × [pad, vh - pad]`. The starting state is arbitrary,
so the empty system is covered. -/
theorem seekField_position_after_clamping_call {K : Type} [LinearOrderedField K] (m : Libm K)
    (s0 : AnimationSystem K) (calls : List (Call K)) (c : Call K)
    (hdef : AnimationSystem.resizesDefined m s0 (calls ++ [c]) = true)
    (hc : c = Call.clear ∨
      (c.clamps = true ∧ 200 ≤ (AnimationSystem.run m s0 (calls ++ [c])).vw ∧
        200 ≤ (AnimationSystem.run m s0 (calls ++ [c])).vh)) :
    ∀ icon ∈ (AnimationSystem.run m s0 (calls ++ [c])).icons,
      AnimationSystem.inPaddedRect (AnimationSystem.run m s0 (calls ++ [c])).vw
        (AnimationSystem.run m s0 (calls ++ [c])).vh icon.x icon.y := by
  have _ := hdef
  have hrun : AnimationSystem.run m s0 (calls ++ [c])
      = AnimationSystem.step m (AnimationSystem.run m s0 calls) c := by
    simp [AnimationSystem.run, List.foldl_append]
  rw [hrun] at hc ⊢
  rcases hc with rfl | ⟨hcl, hvw, hvh⟩
  · intro icon hi
    simp [AnimationSystem.step, AnimationSystem.clear] at hi
  · cases c with
    | init w h => simp [Call.clamps] at hcl
    | add id x y => simp [Call.clamps] at hcl
    | scroll p => simp [Call.clamps] at hcl
    | clear => simp [Call.clamps] at hcl
    | update dt =>
      exact AnimationSystem.update_inPaddedRect m _ dt hvw hvh
    | resize w h =>
      intro icon hi
      exact (AnimationSystem.resize_inPaddedRect _ w h hvw hvh icon hi).1

/-- The run that the hypothesis on `resize` excludes: from the empty system the stored
viewport is `0 × 0`, and `add(0, 0, 0); resize(800, 600)` divides by it. -/
theorem seekField_resize_from_zero_viewport :
    AnimationSystem.resizesDefined realLibm (AnimationSystem.empty sampleRng)
      ([Call.add 0 0 0] ++ [Call.resize 800 600]) = false := by
  simp [AnimationSystem.resizesDefined, AnimationSystem.step, AnimationSystem.addIcon,
    AnimationSystem.empty]

/-- C4 (amended) on `init(800, 600); add(0, 0, 0); resize(1024, 768); scroll(3);
update(1/60)`: the `resize` finds the viewport `800 × 600`, the last call clamps, the
stored viewport is `1024 × 768`, and every icon is in the padded rectangle. -/
theorem seekField_position_after_clamping_call_witness :
    AnimationSystem.resizesDefined realLibm (AnimationSystem.empty sampleRng)
      ([Call.init 800 600, Call.add 0 0 0, Call.resize 1024 768, Call.scroll 3]
        ++ [Call.update (1 / 60)]) = true ∧
    ((Call.update (1 / 60) : Call ℝ).clamps = true ∧
      (200 : ℝ) ≤ (AnimationSystem.run realLibm (AnimationSystem.empty sampleRng)
        ([Call.init 800 600, Call.add 0 0 0, Call.resize 1024 768, Call.scroll 3]
          ++ [Call.update (1 / 60)])).vw ∧
      (200 : ℝ) ≤ (AnimationSystem.run realLibm (AnimationSystem.empty sampleRng)
        ([Call.init 800 600, Call.add 0 0 0, Call.resize 1024 768, Call.scroll 3]
          ++ [Call.update (1 / 60)])).vh) ∧
    ∀ icon ∈ (AnimationSystem.run realLibm (AnimationSystem.empty sampleRng)
        ([Call.init 800 600, Call.add 0 0 0, Call.resize 1024 768, Call.scroll 3]
          ++ [Call.update (1 / 60)])).icons,
      AnimationSystem.inPaddedRect
        (AnimationSystem.run realLibm (AnimationSystem.empty sampleRng)
          ([Call.init 800 600, Call.add 0 0 0, Call.resize 1024 768, Call.scroll 3]
            ++ [Call.update (1 / 60)])).vw
        (AnimationSystem.run realLibm (AnimationSystem.empty sampleRng)
          ([Call.init 800 600, Call.add 0 0 0, Call.resize 1024 768, Call.scroll 3]
            ++ [Call.update (1 / 60)])).vh
        icon.x icon.y := by
  have hdef : AnimationSystem.resizesDefined realLibm (AnimationSystem.empty sampleRng)
      ([Call.init 800 600, Call.add 0 0 0, Call.resize 1024 768, Call.scroll 3]
        ++ [Call.update (1 / 60)]) = true := by
    simp [AnimationSystem.resizesDefined, AnimationSystem.step, AnimationSystem.addIcon,
      AnimationSystem.setViewport, AnimationSystem.empty]
  have hc : (Call.update (1 / 60) : Call ℝ).clamps = true ∧
      (200 : ℝ) ≤ (AnimationSystem.run realLibm (AnimationSystem.empty sampleRng)
        ([Call.init 800 600, Call.add 0 0 0, Call.resize 1024 768, Call.scroll 3]
          ++ [Call.update (1 / 60)])).vw ∧
      (200 : ℝ) ≤ (AnimationSystem.run realLibm (AnimationSystem.empty sampleRng)
        ([Call.init 800 600, Call.add 0 0 0, Call.resize 1024 768, Call.scroll 3]
          ++ [Call.update (1 / 60)])).vh := by
    refine ⟨rfl, ?_, ?_⟩
    · simp [AnimationSystem.run, AnimationSystem.step, AnimationSystem.update,
        AnimationSystem.scroll, AnimationSystem.resize, AnimationSystem.addIcon,
        AnimationSystem.setViewport, AnimationSystem.empty]
      norm_num
    · simp [AnimationSystem.run, AnimationSystem.step, AnimationSystem.update,
        AnimationSystem.scroll, AnimationSystem.resize, AnimationSystem.addIcon,
        AnimationSystem.setViewport, AnimationSystem.empty]
      norm_num
  exact ⟨hdef, hc,
    seekField_position_after_clamping_call realLibm (AnimationSystem.empty sampleRng)
      [Call.init 800 600, Call.add 0 0 0, Call.resize 1024 768, Call.scroll 3]
      (Call.update (1 / 60)) hdef (Or.inr hc)⟩

/-! ## C5 : retarget on arrival -/

section Retarget

variable {K : Type} [LinearOrderedField K]

/-- The branch of `update` taken when `dist > 5` is false: no step, a new target from two
draws (`x` first), and the final clamp. -/
theorem AnimationSystem.updateIcon_of_near (m : Libm K) (vw vh dt : K) (icon : Icon K)
    (g : Mt19937) (hd : ¬ icon.distance m > 5) :
    (updateIcon m vw vh dt icon g).1.x = clamp icon.x pad (vw - pad) ∧
    (updateIcon m vw vh dt icon g).1.y = clamp icon.y pad (vh - pad) ∧
    (updateIcon m vw vh dt icon g).1.tx = (uniformReal pad (vw - pad) g).1 ∧
    (updateIcon m vw vh dt icon g).1.ty
      = (uniformReal pad (vh - pad) (uniformReal pad (vw - pad) g).2).1 ∧
    (updateIcon m vw vh dt icon g).2
      = (uniformReal pad (vh - pad) (uniformReal pad (vw - pad) g).2).2 := by
  have hd' : ¬ m.sqrt ((icon.tx - icon.x) * (icon.tx - icon.x)
      + (icon.ty - icon.y) * (icon.ty - icon.y)) > 5.0 := by
    have h5 : (5.0 : K) = 5 := by norm_num
    rw [h5]
    exact hd
  simp [updateIcon, if_neg hd', newTarget]

theorem AnimationSystem.newTarget_inPaddedRect (vw vh : K) (g : Mt19937)
    (hvw : 200 ≤ vw) (hvh : 200 ≤ vh) :
    inPaddedRect vw vh (uniformReal pad (vw - pad) g).1
      (uniformReal pad (vh - pad) (uniformReal pad (vw - pad) g).2).1 := by
  have hx := uniformReal_mem pad (vw - pad) (pad_le_sub_pad vw hvw) g
  have hy := uniformReal_mem pad (vh - pad) (pad_le_sub_pad vh hvh)
    (uniformReal pad (vw - pad) g).2
  exact ⟨hx.1, hx.2, hy.1, hy.2⟩

end Retarget

section Approach

variable {K : Type} [LinearOrderedField K]

/-- The branch of `update` taken when `dist > 5`: one easing step, the target and the
engine untouched, and the final clamp. -/
theorem AnimationSystem.updateIcon_of_far (m : Libm K) (vw vh dt : K) (icon : Icon K)
    (g : Mt19937) (hd : icon.distance m > 5) :
    (updateIcon m vw vh dt icon g).1.x
      = clamp (icon.x + (icon.tx - icon.x) * easing m dt) pad (vw - pad) ∧
    (updateIcon m vw vh dt icon g).1.y
      = clamp (icon.y + (icon.ty - icon.y) * easing m dt) pad (vh - pad) ∧
    (updateIcon m vw vh dt icon g).1.tx = icon.tx ∧
    (updateIcon m vw vh dt icon g).1.ty = icon.ty ∧
    (updateIcon m vw vh dt icon g).2 = g := by
  have hd' : m.sqrt ((icon.tx - icon.x) * (icon.tx - icon.x)
      + (icon.ty - icon.y) * (icon.ty - icon.y)) > 5.0 := by
    have h5 : (5.0 : K) = 5 := by norm_num
    rw [h5]
    exact hd
  simp [updateIcon, if_pos hd', easing]

end Approach

theorem AnimationSystem.easing_real_mem (dt : ℝ) (hdt : 0 ≤ dt) :
    0 ≤ AnimationSystem.easing realLibm dt ∧ AnimationSystem.easing realLibm dt < 1 := by
  simp only [AnimationSystem.easing, realLibm]
  have h1 : Real.exp (-0.02 * dt * 60.0) ≤ 1 := by
    rw [Real.exp_le_one_iff]
    norm_num
    nlinarith
  have h2 := Real.exp_pos (-0.02 * dt * 60.0)
  norm_num at h1 h2 ⊢
  constructor <;> linarith

/-- The icon of `seekScenario`: at `(400, 300)`, with the drawn target `(550, 100)`. -/
theorem seekScenario_icons :
    (seekScenario : AnimationSystem ℝ).icons
      = [{ x := 400, y := 300, tx := 550, ty := 100, rot := 252, scale := 0.6,
           opacity := 0.62, time := 0, id := 0 }] := by
  simp [seekScenario, AnimationSystem.addIcon, AnimationSystem.newTarget,
    AnimationSystem.setViewport, AnimationSystem.empty, Icon.new, uniformReal,
    generateCanonical, Mt19937.next, sampleRng, AnimationSystem.pad]
  norm_num

/-- C7. In both flower systems, when the stored width and height are non-zero,
`resize(width, height)` with the stored dimensions returns the state unchanged: every
field of every flower, the engine and the stored dimensions. -/
theorem driftField_resize_same {K : Type} [LinearOrderedField K]
    (a : AboutAnimationSystem K) (b : FooterAnimationSystem K)
    (haw : a.width ≠ 0) (hah : a.height ≠ 0) (hbw : b.width ≠ 0) (hbh : b.height ≠ 0) :
    a.resize a.width a.height = a ∧ b.resize b.width b.height = b := by
  constructor
  · simp only [AboutAnimationSystem.resize, AboutAnimationSystem.setDimensions, div_self haw,
      div_self hah, mul_one]
    simp
  · simp only [FooterAnimationSystem.resize, FooterAnimationSystem.setDimensions, div_self hbw,
      div_self hbh, mul_one]
    simp

/-- C7 at the sample systems (`1000 × 800`). -/
theorem driftField_resize_same_witness :
    (sampleAbout : AboutAnimationSystem ℚ).resize 1000 800 = sampleAbout ∧
    (sampleFooter : FooterAnimationSystem ℚ).resize 1000 800 = sampleFooter :=
  driftField_resize_same (sampleAbout : AboutAnimationSystem ℚ)
    (sampleFooter : FooterAnimationSystem ℚ)
    (by norm_num [sampleAbout]) (by norm_num [sampleAbout])
    (by norm_num [sampleFooter]) (by norm_num [sampleFooter])

/-! ## C8 : resizing the icon system to the stored viewport -/

/-- The four coordinates that `resize` writes: position and target. -/
theorem AnimationSystem.resizeIcon_one {K : Type} [LinearOrderedField K] (w h : K)
    (icon : Icon K) :
    AnimationSystem.resizeIcon 1 1 w h icon
      = { icon with
          x := clamp icon.x AnimationSystem.pad (w - AnimationSystem.pad)
          y := clamp icon.y AnimationSystem.pad (h - AnimationSystem.pad)
          tx := clamp icon.tx AnimationSystem.pad (w - AnimationSystem.pad)
          ty := clamp icon.ty AnimationSystem.pad (h - AnimationSystem.pad) } := by
  simp [AnimationSystem.resizeIcon]

/-- C8, refuted as stated: after `configure(800, 600); addParticle(0, 0, 0)` the viewport
is non-zero and the icon is at `(0, 0)`; `resize(800, 600)` moves it to `(100, 100)`. -/
theorem seekField_resize_same_counterexample :
    (cornerScenario : AnimationSystem ℝ).vw ≠ 0 ∧ (cornerScenario : AnimationSystem ℝ).vh ≠ 0 ∧
    (cornerScenario : AnimationSystem ℝ).icons.map (fun icon => (icon.x, icon.y)) = [(0, 0)] ∧
    ((cornerScenario : AnimationSystem ℝ).resize (cornerScenario : AnimationSystem ℝ).vw
      (cornerScenario : AnimationSystem ℝ).vh).icons.map (fun icon => (icon.x, icon.y))
        = [(100, 100)] := by
  refine ⟨?_, ?_, ?_, ?_⟩
  · norm_num [cornerScenario, AnimationSystem.addIcon, AnimationSystem.setViewport]
  · norm_num [cornerScenario, AnimationSystem.addIcon, AnimationSystem.setViewport]
  · simp [cornerScenario, AnimationSystem.addIcon, AnimationSystem.newTarget,
      AnimationSystem.setViewport, AnimationSystem.empty, Icon.new]
  · simp [cornerScenario, AnimationSystem.addIcon, AnimationSystem.newTarget,
      AnimationSystem.setViewport, AnimationSystem.empty, Icon.new, AnimationSystem.resize,
      AnimationSystem.resizeIcon, clamp, AnimationSystem.pad]
    norm_num

/-- C8, amended. With a non-zero stored viewport, `resize(vw, vh)` with the stored
dimensions replaces each of `x`, `y`, `tx`, `ty` by its clamp to the padded rectangle and
changes nothing else; so when the position and the target of every icon lie in the padded
rectangle, the state is returned unchanged. -/
theorem seekField_resize_same {K : Type} [LinearOrderedField K] (s : AnimationSystem K)
    (hvw : s.vw ≠ 0) (hvh : s.vh ≠ 0) :
    s.resize s.vw s.vh
      = { s with icons := s.icons.map (fun icon =>
          { icon with
            x := clamp icon.x AnimationSystem.pad (s.vw - AnimationSystem.pad)
            y := clamp icon.y AnimationSystem.pad (s.vh - AnimationSystem.pad)
            tx := clamp icon.tx AnimationSystem.pad (s.vw - AnimationSystem.pad)
            ty := clamp icon.ty AnimationSystem.pad (s.vh - AnimationSystem.pad) }) } ∧
    ((∀ icon ∈ s.icons, AnimationSystem.inPaddedRect s.vw s.vh icon.x icon.y ∧
        AnimationSystem.inPaddedRect s.vw s.vh icon.tx icon.ty) →
      s.resize s.vw s.vh = s) := by
  have hres : s.resize s.vw s.vh
      = { s with icons := s.icons.map (AnimationSystem.resizeIcon 1 1 s.vw s.vh) } := by
    simp only [AnimationSystem.resize, AnimationSystem.setViewport, div_self hvw, div_self hvh]
  constructor
  · rw [hres]
    congr 1
    exact List.map_congr_left (fun icon _ => AnimationSystem.resizeIcon_one s.vw s.vh icon)
  · intro hin
    rw [hres]
    have hmap : s.icons.map (AnimationSystem.resizeIcon 1 1 s.vw s.vh) = s.icons := by
      conv_rhs => rw [← List.map_id s.icons]
      apply List.map_congr_left
      intro icon hi
      obtain ⟨⟨h1, h2, h3, h4⟩, ⟨h5, h6, h7, h8⟩⟩ := hin icon hi
      rw [AnimationSystem.resizeIcon_one, clamp_eq_self _ _ _ h1 h2, clamp_eq_self _ _ _ h3 h4,
        clamp_eq_self _ _ _ h5 h6, clamp_eq_self _ _ _ h7 h8]
      rfl
    rw [hmap]

/-- C8 (amended) on the scenario `configure(800, 600); addParticle(0, 400, 300)`: position
`(400, 300)` and target `(550, 100)` are inside `[100, 700] × [100, 500]`, and
`resize(800, 600)` returns the state unchanged. -/
theorem seekField_resize_same_witness :
    (seekScenario : AnimationSystem ℝ).resize 800 600 = seekScenario :=
  (seekField_resize_same (seekScenario : AnimationSystem ℝ)
    (by norm_num [seekScenario, AnimationSystem.addIcon, AnimationSystem.setViewport])
    (by norm_num [seekScenario, AnimationSystem.addIcon, AnimationSystem.setViewport])).2
    (by
      rw [seekScenario_icons]
      intro icon hi
      rw [List.mem_singleton] at hi
      subst hi
      have hvw : (seekScenario : AnimationSystem ℝ).vw = 800 := rfl
      have hvh : (seekScenario : AnimationSystem ℝ).vh = 600 := rfl
      rw [hvw, hvh]
      norm_num [AnimationSystem.inPaddedRect, AnimationSystem.pad])

/-! ## C9 : the wrap bounds across `resize` of the flower systems -/

/-- The same failure in the Footer system: `x = 2` on the boundary `200/200 + 1`, moved to
`x = 20` by `resize(2000, 200)`, beyond `2000/200 + 1 = 11`. -/
theorem driftField_resize_bound_footer_value :
    ((edgeFooter : FooterAnimationSystem ℝ).resize 2000 200).flowers.map (fun f => f.x)
      = [20] := by
  norm_num [edgeFooter, FooterAnimationSystem.resize, FooterAnimationSystem.setDimensions]

section Populate

variable {K : Type} [LinearOrderedField K]

/-- What one iteration of the loop of `init` appends (About). -/
theorem AboutAnimationSystem.initStep_fst (width height : K)
    (acc : List (AboutFlower K) × Mt19937) (i : Nat) :
    ∃ f : AboutFlower K, (initStep width height acc i).1 = acc.1 ++ [f] ∧ f.id = (i : Int) ∧
      f.color = Int.tmod (i : Int) 6 ∧ 0.4 ≤ f.scale ∧ f.scale ≤ 0.8 := by
  refine ⟨_, rfl, rfl, rfl, ?_⟩
  exact uniformReal_mem (0.4 : K) 0.8 (by norm_num) _

/-- What one iteration of the loop of `init` appends (Footer). -/
theorem FooterAnimationSystem.footer_initStep_fst (width height : K)
    (acc : List (Flower K) × Mt19937) (i : Nat) :
    ∃ f : Flower K, (initStep width height acc i).1 = acc.1 ++ [f] ∧ f.id = (i : Int) ∧
      f.color = Int.tmod (i : Int) 6 ∧ 0.3 ≤ f.scale ∧ f.scale ≤ 0.7 := by
  refine ⟨_, rfl, rfl, rfl, ?_⟩
  exact uniformReal_mem (0.3 : K) 0.7 (by norm_num) _

end Populate

/-- A loop over `0, ..., n-1` whose body appends one element with `id = i` satisfying `P`
produces the ids `0, ..., n-1` in order, all elements satisfying `P`. -/
theorem foldl_range_append {K α : Type} (step : List (Flower K) × α → Nat → List (Flower K) × α)
    (P : Flower K → Prop)
    (hstep : ∀ acc i, ∃ f, (step acc i).1 = acc.1 ++ [f] ∧ f.id = (i : Int) ∧ P f)
    (n : Nat) (a0 : α) :
    ((List.range n).foldl step ([], a0)).1.map (fun f => f.id)
        = (List.range n).map (fun i : Nat => (i : Int)) ∧
      ∀ f ∈ ((List.range n).foldl step ([], a0)).1, P f := by
  induction n with
  | zero => simp
  | succ n ih =>
    obtain ⟨f, hf, hid, hP⟩ := hstep ((List.range n).foldl step ([], a0)) n
    rw [List.range_succ, List.foldl_append, List.foldl_cons, List.foldl_nil, hf]
    constructor
    · rw [List.map_append, List.map_append, ih.1]
      simp [hid]
    · intro f' hf'
      rw [List.mem_append, List.mem_singleton] at hf'
      rcases hf' with h | rfl
      · exact ih.2 f' h
      · exact hP


/-- C10. From every prior state, `init` leaves exactly `12` flowers (About) or `6` flowers
(Footer), with ids `0, 1, ..., N-1` in that order, each with `color = id mod 6` and
`scale` in `[0.4, 0.8]` (About) or `[0.3, 0.7]` (Footer), whatever words the engine
produces; in particular a second `init` leaves `N` flowers again, and the stored
dimensions are kept. -/
theorem driftField_populate {K : Type} [LinearOrderedField K]
    (a : AboutAnimationSystem K) (b : FooterAnimationSystem K) :
    (a.init.flowers.length = 12 ∧
      a.init.flowers.map (fun f => f.id) = [0, 1, 2, 3, 4, 5, 6, 7, 8, 9, 10, 11] ∧
      (∀ f ∈ a.init.flowers, f.color = f.id % 6 ∧ 0.4 ≤ f.scale ∧ f.scale ≤ 0.8) ∧
      a.init.init.flowers.length = 12 ∧ a.init.width = a.width ∧ a.init.height = a.height) ∧
    (b.init.flowers.length = 6 ∧
      b.init.flowers.map (fun f => f.id) = [0, 1, 2, 3, 4, 5] ∧
      (∀ f ∈ b.init.flowers, f.color = f.id % 6 ∧ 0.3 ≤ f.scale ∧ f.scale ≤ 0.7) ∧
      b.init.init.flowers.length = 6 ∧ b.init.width = b.width ∧ b.init.height = b.height) := by
  have ha : ∀ a' : AboutAnimationSystem K,
      a'.init.flowers.map (fun f => f.id) = [0, 1, 2, 3, 4, 5, 6, 7, 8, 9, 10, 11] ∧
      ∀ f ∈ a'.init.flowers, f.color = f.id % 6 ∧ 0.4 ≤ f.scale ∧ f.scale ≤ 0.8 := by
    intro a'
    have h := foldl_range_append (AboutAnimationSystem.initStep a'.width a'.height)
      (fun f => f.color = f.id % 6 ∧ 0.4 ≤ f.scale ∧ f.scale ≤ 0.8)
      (fun acc i => by
        obtain ⟨f, h1, h2, h3, h4⟩ := AboutAnimationSystem.initStep_fst a'.width a'.height acc i
        refine ⟨f, h1, h2, ?_, h4⟩
        rw [h3, h2]
        exact Int.tmod_eq_emod (Int.ofNat_nonneg i) (by decide))
      12 a'.rng
    exact ⟨h.1, h.2⟩
  have hb : ∀ b' : FooterAnimationSystem K,
      b'.init.flowers.map (fun f => f.id) = [0, 1, 2, 3, 4, 5] ∧
      ∀ f ∈ b'.init.flowers, f.color = f.id % 6 ∧ 0.3 ≤ f.scale ∧ f.scale ≤ 0.7 := by
    intro b'
    have h := foldl_range_append (FooterAnimationSystem.initStep b'.width b'.height)
      (fun f => f.color = f.id % 6 ∧ 0.3 ≤ f.scale ∧ f.scale ≤ 0.7)
      (fun acc i => by
        obtain ⟨f, h1, h2, h3, h4⟩ :=
          FooterAnimationSystem.footer_initStep_fst b'.width b'.height acc i
        refine ⟨f, h1, h2, ?_, h4⟩
        rw [h3, h2]
        exact Int.tmod_eq_emod (Int.ofNat_nonneg i) (by decide))
      6 b'.rng
    exact ⟨h.1, h.2⟩
  have hlen : ∀ (l : List (Flower K)) (ids : List Int),
      l.map (fun f => f.id) = ids → l.length = ids.length := by
    intro l ids h
    rw [← h, List.length_map]
  exact ⟨⟨hlen _ _ (ha a).1, (ha a).1, (ha a).2, hlen _ _ (ha a.init).1, rfl, rfl⟩,
    ⟨hlen _ _ (hb b).1, (hb b).1, (hb b).2, hlen _ _ (hb b.init).1, rfl, rfl⟩⟩

/-- The scenario `configure(1000, 800); populate()` of the About system from the empty
state: twelve flowers with the ids `0, ..., 11` and the colours `0, ..., 5, 0, ..., 5`. -/
theorem driftField_populate_scenario :
    (((⟨[], sampleRng, 0, 0⟩ : AboutAnimationSystem ℚ).aboutInit 1000 800).flowers.map
      (fun f => (f.id, f.color)))
      = [(0, 0), (1, 1), (2, 2), (3, 3), (4, 4), (5, 5), (6, 0), (7, 1), (8, 2), (9, 3),
         (10, 4), (11, 5)] := by
  rfl

/-! ## C11 : the order of the records of `getData` -/

theorem AnimationSystem.getData_ids {K : Type} (s : AnimationSystem K) :
    s.getData.map (fun d => d.id) = s.icons.map (fun icon => icon.id) := by
  simp [AnimationSystem.getData, Icon.data, List.map_map, Function.comp_def]

section Snapshot

variable {K : Type} [LinearOrderedField K]

theorem AnimationSystem.updateIcon_id (m : Libm K) (vw vh dt : K) (icon : Icon K)
    (g : Mt19937) : (updateIcon m vw vh dt icon g).1.id = icon.id := by
  simp only [updateIcon, newTarget]
  split_ifs <;> rfl

theorem AnimationSystem.updateIcons_ids (m : Libm K) (vw vh dt : K) (icons : List (Icon K)) :
    ∀ g : Mt19937, (updateIcons m vw vh dt icons g).1.map (fun icon => icon.id)
      = icons.map (fun icon => icon.id) := by
  induction icons with
  | nil => intro g; rfl
  | cons icon rest ih =>
    intro g
    simp only [updateIcons, List.map_cons, ih, updateIcon_id]

/-- One exported call acts on the id sequence of the collection as `Call.idsAfter`. -/
theorem AnimationSystem.step_ids (m : Libm K) (s : AnimationSystem K) (c : Call K) :
    (step m s c).icons.map (fun icon => icon.id)
      = Call.idsAfter (s.icons.map (fun icon => icon.id)) c := by
  cases c with
  | init w h => rfl
  | add id x y => simp [step, addIcon, newTarget, Icon.new, Call.idsAfter]
  | update dt => exact updateIcons_ids m s.vw s.vh dt s.icons s.rng
  | scroll p => simp [step, scroll, scrollIcon, Call.idsAfter, List.map_map, Function.comp_def]
  | resize w h =>
    simp [step, resize, setViewport, resizeIcon, Call.idsAfter, List.map_map,
      Function.comp_def]
  | clear => rfl

theorem AnimationSystem.run_ids (m : Libm K) (calls : List (Call K)) :
    ∀ s : AnimationSystem K, (run m s calls).icons.map (fun icon => icon.id)
      = calls.foldl Call.idsAfter (s.icons.map (fun icon => icon.id)) := by
  induction calls with
  | nil => intro s; rfl
  | cons c rest ih =>
    intro s
    simp only [run, List.foldl_cons] at ih ⊢
    rw [ih (step m s c), step_ids]

end Snapshot

/-- C11. From the empty system, after any sequence of calls the ids of the records of
`getData`, in order, are the ids passed to `add` since the last `clear`, in call order and
with duplicates kept; from any state, `init`, `update`, `scroll` and `resize` leave the id
sequence of `getData` and the number of icons unchanged. (`getData` is a function of the
state: it returns records and no new state.) -/
theorem seekField_snapshot_order {K : Type} [LinearOrderedField K] (m : Libm K)
    (g : Mt19937) (calls : List (Call K)) (s : AnimationSystem K) (w h dt p : K) :
    (AnimationSystem.run m (AnimationSystem.empty g) calls).getData.map (fun d => d.id)
      = Call.addedIds calls ∧
    (∀ c : Call K, c = Call.init w h ∨ c = Call.update dt ∨ c = Call.scroll p ∨
        c = Call.resize w h →
      (AnimationSystem.step m s c).getData.map (fun d => d.id)
          = s.getData.map (fun d => d.id) ∧
        (AnimationSystem.step m s c).getData.length = s.getData.length ∧
        (AnimationSystem.step m s c).icons.length = s.icons.length) := by
  constructor
  · rw [AnimationSystem.getData_ids, AnimationSystem.run_ids]
    rfl
  · intro c hc
    have hids : (AnimationSystem.step m s c).icons.map (fun icon => icon.id)
        = s.icons.map (fun icon => icon.id) := by
      rw [AnimationSystem.step_ids]
      rcases hc with rfl | rfl | rfl | rfl <;> rfl
    have hlen : (AnimationSystem.step m s c).icons.length = s.icons.length := by
      have := congrArg List.length hids
      simpa using this
    refine ⟨?_, ?_, hlen⟩
    · rw [AnimationSystem.getData_ids, AnimationSystem.getData_ids, hids]
    · simpa [AnimationSystem.getData] using hlen

/-- C11 on concrete runs: ids `7, 3, 7` added around other calls; `clear` restarts the
sequence; `update` on the scenario system keeps the id sequence. -/
theorem seekField_snapshot_order_witness :
    (AnimationSystem.run realLibm (AnimationSystem.empty sampleRng)
      [Call.init 800 600, Call.add 7 0 0, Call.add 3 10 10, Call.update 1, Call.scroll 2,
       Call.add 7 5 5, Call.resize 400 300]).getData.map (fun d => d.id) = [7, 3, 7] ∧
    (AnimationSystem.run realLibm (AnimationSystem.empty sampleRng)
      [Call.init 800 600, Call.add 7 0 0, Call.add 3 10 10, Call.clear,
       Call.add 5 5 5]).getData.map (fun d => d.id) = [5] ∧
    (AnimationSystem.step realLibm seekScenario (Call.update 1)).getData.map (fun d => d.id)
      = (seekScenario : AnimationSystem ℝ).getData.map (fun d => d.id) :=
  ⟨(seekField_snapshot_order realLibm sampleRng
      [Call.init 800 600, Call.add 7 0 0, Call.add 3 10 10, Call.update 1, Call.scroll 2,
       Call.add 7 5 5, Call.resize 400 300] seekScenario 0 0 1 0).1.trans rfl,
    (seekField_snapshot_order realLibm sampleRng
      [Call.init 800 600, Call.add 7 0 0, Call.add 3 10 10, Call.clear,
       Call.add 5 5 5] seekScenario 0 0 1 0).1.trans rfl,
    ((seekField_snapshot_order realLibm sampleRng [] seekScenario 0 0 1 0).2
      (Call.update 1) (Or.inr (Or.inl rfl))).1⟩

/-! ## C12 : what `update` and `resize` of the flower systems write -/

/-- C12. In both flower systems `update(dt)` keeps the stored dimensions, the engine, the
number and order of the flowers, and in each flower everything but `x`, `y`, `rot`, `time`,
with `time' = time + dt` and `rot' = rot + 8 * dt` (About) or `rot + 10 * dt` (Footer);
`resize(w, h)` stores `w`, `h`, keeps the engine, the number and order of the flowers, and
in each flower everything but `x`, `y`. Old and new flowers are paired by position. -/
theorem driftField_frame {K : Type} [LinearOrderedField K] (m : Libm K)
    (a : AboutAnimationSystem K) (b : FooterAnimationSystem K) (dt w h : K) :
    ((a.update m dt).width = a.width ∧ (a.update m dt).height = a.height ∧
      (a.update m dt).rng = a.rng ∧
      List.Forall₂ (fun old new =>
          new = { old with x := new.x, y := new.y, rot := old.rot + 8 * dt,
                           time := old.time + dt })
        a.flowers (a.update m dt).flowers ∧
      (a.resize w h).width = w ∧ (a.resize w h).height = h ∧ (a.resize w h).rng = a.rng ∧
      List.Forall₂ (fun old new => new = { old with x := new.x, y := new.y })
        a.flowers (a.resize w h).flowers) ∧
    ((b.update m dt).width = b.width ∧ (b.update m dt).height = b.height ∧
      (b.update m dt).rng = b.rng ∧
      List.Forall₂ (fun old new =>
          new = { old with x := new.x, y := new.y, rot := old.rot + 10 * dt,
                           time := old.time + dt })
        b.flowers (b.update m dt).flowers ∧
      (b.resize w h).width = w ∧ (b.resize w h).height = h ∧ (b.resize w h).rng = b.rng ∧
      List.Forall₂ (fun old new => new = { old with x := new.x, y := new.y })
        b.flowers (b.resize w h).flowers) := by
  refine ⟨⟨rfl, rfl, rfl, ?_, rfl, rfl, rfl, ?_⟩, ⟨rfl, rfl, rfl, ?_, rfl, rfl, rfl, ?_⟩⟩
  · simp only [AboutAnimationSystem.update, List.forall₂_map_right_iff, List.forall₂_same]
    intro f _
    simp only [AboutAnimationSystem.updateFlower]
    norm_num
  · simp only [AboutAnimationSystem.resize, AboutAnimationSystem.setDimensions,
      List.forall₂_map_right_iff, List.forall₂_same]
    intro f _
    trivial
  · simp only [FooterAnimationSystem.update, List.forall₂_map_right_iff, List.forall₂_same]
    intro f _
    simp only [FooterAnimationSystem.updateFlower]
    norm_num
  · simp only [FooterAnimationSystem.resize, FooterAnimationSystem.setDimensions,
      List.forall₂_map_right_iff, List.forall₂_same]
    intro f _
    trivial

/-! ## C13 : `clear` -/

/-- C13. In each of the three systems, from every state, `clear` leaves no particle, so
`getData` returns the empty sequence, and the stored dimensions and the engine are those
before the call. -/
theorem clear_empties {K : Type} (a : AboutAnimationSystem K) (b : FooterAnimationSystem K)
    (s : AnimationSystem K) :
    (a.clear.flowers = [] ∧ a.clear.getData = [] ∧ a.clear.width = a.width ∧
      a.clear.height = a.height ∧ a.clear.rng = a.rng) ∧
    (b.clear.flowers = [] ∧ b.clear.getData = [] ∧ b.clear.width = b.width ∧
      b.clear.height = b.height ∧ b.clear.rng = b.rng) ∧
    (s.clear.icons = [] ∧ s.clear.getData = [] ∧ s.clear.vw = s.vw ∧ s.clear.vh = s.vh ∧
      s.clear.rng = s.rng) :=
  ⟨⟨rfl, rfl, rfl, rfl, rfl⟩, ⟨rfl, rfl, rfl, rfl, rfl⟩, ⟨rfl, rfl, rfl, rfl, rfl⟩⟩

/-! ## C14 : two frames against one frame -/

section Compensation

variable {K : Type} [LinearOrderedField K]

/-- The whole result of the loop body of `update` in the branch `dist > 5`. -/
theorem AnimationSystem.updateIcon_far_eq (m : Libm K) (vw vh dt : K) (icon : Icon K)
    (g : Mt19937) (hd : icon.distance m > 5) :
    updateIcon m vw vh dt icon g
      = ({ icon with
            time := icon.time + dt
            x := clamp (icon.x + (icon.tx - icon.x) * easing m dt) pad (vw - pad)
            y := clamp (icon.y + (icon.ty - icon.y) * easing m dt) pad (vh - pad)
            rot := icon.rot + ((icon.id : K) * 10.0 - 50.0) * dt
            scale := 0.7 + 0.3 * m.sin ((icon.time + dt) * (0.5 + (icon.id : K) * 0.1))
            opacity := 0.2 + 0.3 * m.sin ((icon.time + dt) * (0.3 + (icon.id : K) * 0.05)) },
          g) := by
  have hd' : m.sqrt ((icon.tx - icon.x) * (icon.tx - icon.x)
      + (icon.ty - icon.y) * (icon.ty - icon.y)) > 5.0 := by
    have h5 : (5.0 : K) = 5 := by norm_num
    rw [h5]
    exact hd
  simp only [updateIcon, if_pos hd', easing]

/-- A convex step between two points of `[lo, hi]` is not moved by the clamp. -/
theorem clamp_convex (x tx lo hi t : K) (hx : lo ≤ x) (hx' : x ≤ hi) (ht : lo ≤ tx)
    (ht' : tx ≤ hi) (h0 : 0 ≤ t) (h1 : t ≤ 1) :
    clamp (x + (tx - x) * t) lo hi = x + (tx - x) * t := by
  apply clamp_eq_self
  · nlinarith [mul_nonneg (sub_nonneg.mpr hx) (sub_nonneg.mpr h1),
      mul_nonneg (sub_nonneg.mpr ht) h0]
  · nlinarith [mul_nonneg (sub_nonneg.mpr hx') (sub_nonneg.mpr h1),
      mul_nonneg (sub_nonneg.mpr ht') h0]

/-- When every icon is farther than `5` from its target, the loop of `update` draws
nothing: it maps the loop body over the icons and returns the engine as it was. -/
theorem AnimationSystem.updateIcons_all_far (m : Libm K) (vw vh dt : K) (g : Mt19937)
    (icons : List (Icon K)) (hfar : ∀ icon ∈ icons, icon.distance m > 5) :
    updateIcons m vw vh dt icons g
      = (icons.map (fun icon => (updateIcon m vw vh dt icon g).1), g) := by
  induction icons with
  | nil => rfl
  | cons icon rest ih =>
    have h2 : (updateIcon m vw vh dt icon g).2 = g :=
      (updateIcon_of_far m vw vh dt icon g (hfar icon (List.mem_cons_self _ _))).2.2.2.2
    simp only [updateIcons, h2, List.map_cons,
      ih (fun i hi => hfar i (List.mem_cons_of_mem _ hi))]

end Compensation

theorem AnimationSystem.easing_real_eq (dt : ℝ) :
    AnimationSystem.easing realLibm dt = 1 - Real.exp (-1.2 * dt) := by
  have h : (-0.02 * dt * 60.0 : ℝ) = -1.2 * dt := by
    norm_num
    ring
  simp only [AnimationSystem.easing, realLibm, h]
  norm_num

/-- One frame in the branch `dist > 5`, from inside the padded rectangle towards a target
inside it: the position reached, without the clamp. -/
theorem AnimationSystem.updateIcon_real_far_pos (vw vh dt : ℝ) (icon : Icon ℝ) (g : Mt19937)
    (hpos : AnimationSystem.inPaddedRect vw vh icon.x icon.y)
    (htgt : AnimationSystem.inPaddedRect vw vh icon.tx icon.ty)
    (hdt : 0 ≤ dt) (hd : 5 < icon.distance realLibm) :
    (AnimationSystem.updateIcon realLibm vw vh dt icon g).1.x
      = icon.x + (icon.tx - icon.x) * (1 - Real.exp (-1.2 * dt)) ∧
    (AnimationSystem.updateIcon realLibm vw vh dt icon g).1.y
      = icon.y + (icon.ty - icon.y) * (1 - Real.exp (-1.2 * dt)) ∧
    (AnimationSystem.updateIcon realLibm vw vh dt icon g).1.tx = icon.tx ∧
    (AnimationSystem.updateIcon realLibm vw vh dt icon g).1.ty = icon.ty := by
  obtain ⟨hx, hy, htx, hty, -⟩ := AnimationSystem.updateIcon_of_far realLibm vw vh dt icon g hd
  obtain ⟨ht0, ht1⟩ := AnimationSystem.easing_real_mem dt hdt
  obtain ⟨p1, p2, p3, p4⟩ := hpos
  obtain ⟨q1, q2, q3, q4⟩ := htgt
  rw [clamp_convex _ _ _ _ _ p1 p2 q1 q2 ht0 ht1.le, AnimationSystem.easing_real_eq] at hx
  rw [clamp_convex _ _ _ _ _ p3 p4 q3 q4 ht0 ht1.le, AnimationSystem.easing_real_eq] at hy
  exact ⟨hx, hy, htx, hty⟩

/-- The remaining distance after one frame in the branch `dist > 5`. -/
theorem AnimationSystem.updateIcon_real_far_distance (vw vh dt : ℝ) (icon : Icon ℝ)
    (g : Mt19937) (hpos : AnimationSystem.inPaddedRect vw vh icon.x icon.y)
    (htgt : AnimationSystem.inPaddedRect vw vh icon.tx icon.ty)
    (hdt : 0 ≤ dt) (hd : 5 < icon.distance realLibm) :
    (AnimationSystem.updateIcon realLibm vw vh dt icon g).1.distance realLibm
      = icon.distance realLibm * Real.exp (-1.2 * dt) := by
  obtain ⟨hx, hy, htx, hty⟩ :=
    AnimationSystem.updateIcon_real_far_pos vw vh dt icon g hpos htgt hdt hd
  have he : 0 ≤ Real.exp (-1.2 * dt) := (Real.exp_pos _).le
  rw [Icon.distance, Icon.distance, hx, hy, htx, hty]
  show Real.sqrt _ = Real.sqrt _ * _
  have hsq : (icon.tx - (icon.x + (icon.tx - icon.x) * (1 - Real.exp (-1.2 * dt))))
        * (icon.tx - (icon.x + (icon.tx - icon.x) * (1 - Real.exp (-1.2 * dt))))
      + (icon.ty - (icon.y + (icon.ty - icon.y) * (1 - Real.exp (-1.2 * dt))))
        * (icon.ty - (icon.y + (icon.ty - icon.y) * (1 - Real.exp (-1.2 * dt))))
      = ((icon.tx - icon.x) * (icon.tx - icon.x) + (icon.ty - icon.y) * (icon.ty - icon.y))
        * (Real.exp (-1.2 * dt)) ^ 2 := by
    ring
  rw [hsq, Real.sqrt_mul (add_nonneg (mul_self_nonneg _) (mul_self_nonneg _)),
    Real.sqrt_sq he]

/-- Two icons with the same nine fields are equal. -/
theorem Icon.eq_of_fields {K : Type} (a b : Icon K) (hx : a.x = b.x) (hy : a.y = b.y)
    (htx : a.tx = b.tx) (hty : a.ty = b.ty) (hrot : a.rot = b.rot) (hscale : a.scale = b.scale)
    (hopacity : a.opacity = b.opacity) (htime : a.time = b.time) (hid : a.id = b.id) :
    a = b := by
  cases a
  cases b
  simp_all

/-- The fields that the loop body of `update` writes in the same way in both branches. -/
theorem AnimationSystem.updateIcon_fields {K : Type} [LinearOrderedField K] (m : Libm K)
    (vw vh dt : K) (icon : Icon K) (g : Mt19937) :
    (AnimationSystem.updateIcon m vw vh dt icon g).1.time = icon.time + dt ∧
    (AnimationSystem.updateIcon m vw vh dt icon g).1.rot
      = icon.rot + ((icon.id : K) * 10 - 50) * dt ∧
    (AnimationSystem.updateIcon m vw vh dt icon g).1.scale
      = 0.7 + 0.3 * m.sin ((icon.time + dt) * (0.5 + (icon.id : K) * 0.1)) ∧
    (AnimationSystem.updateIcon m vw vh dt icon g).1.opacity
      = 0.2 + 0.3 * m.sin ((icon.time + dt) * (0.3 + (icon.id : K) * 0.05)) ∧
    (AnimationSystem.updateIcon m vw vh dt icon g).1.id = icon.id := by
  simp only [AnimationSystem.updateIcon, AnimationSystem.newTarget]
  split_ifs <;> norm_num

/-- Two frames `dt1`, `dt2` against one frame `dt1 + dt2`, for one icon that is still
farther than `5` from its target after the first frame. -/
theorem AnimationSystem.updateIcon_real_compose (vw vh dt1 dt2 : ℝ) (icon : Icon ℝ)
    (g : Mt19937) (hpos : AnimationSystem.inPaddedRect vw vh icon.x icon.y)
    (htgt : AnimationSystem.inPaddedRect vw vh icon.tx icon.ty)
    (h1 : 0 ≤ dt1) (h2 : 0 ≤ dt2)
    (hfar : 5 < icon.distance realLibm * Real.exp (-1.2 * dt1)) :
    5 < icon.distance realLibm ∧
    5 < (AnimationSystem.updateIcon realLibm vw vh dt1 icon g).1.distance realLibm ∧
    (AnimationSystem.updateIcon realLibm vw vh dt2
        (AnimationSystem.updateIcon realLibm vw vh dt1 icon g).1 g).1
      = (AnimationSystem.updateIcon realLibm vw vh (dt1 + dt2) icon g).1 := by
  have hd0 : 0 ≤ icon.distance realLibm := Real.sqrt_nonneg _
  have he1 : Real.exp (-1.2 * dt1) ≤ 1 := by
    rw [Real.exp_le_one_iff]
    nlinarith
  have hd : 5 < icon.distance realLibm := by nlinarith
  have hdist := AnimationSystem.updateIcon_real_far_distance vw vh dt1 icon g hpos htgt h1 hd
  have hd1 : 5 < (AnimationSystem.updateIcon realLibm vw vh dt1 icon g).1.distance realLibm := by
    rw [hdist]
    exact hfar
  refine ⟨hd, hd1, ?_⟩
  obtain ⟨ax, ay, atx, aty⟩ :=
    AnimationSystem.updateIcon_real_far_pos vw vh dt1 icon g hpos htgt h1 hd
  obtain ⟨ft, fr, fs, fo, fi⟩ := AnimationSystem.updateIcon_fields realLibm vw vh dt1 icon g
  have hpos1 : AnimationSystem.inPaddedRect vw vh
      (AnimationSystem.updateIcon realLibm vw vh dt1 icon g).1.x
      (AnimationSystem.updateIcon realLibm vw vh dt1 icon g).1.y := by
    obtain ⟨hx, hy, -⟩ := AnimationSystem.updateIcon_of_far realLibm vw vh dt1 icon g hd
    rw [hx, hy]
    exact ⟨(clamp_mem _ _ _ (hpos.1.trans hpos.2.1)).1, (clamp_mem _ _ _ (hpos.1.trans hpos.2.1)).2,
      (clamp_mem _ _ _ (hpos.2.2.1.trans hpos.2.2.2)).1,
      (clamp_mem _ _ _ (hpos.2.2.1.trans hpos.2.2.2)).2⟩
  have htgt1 : AnimationSystem.inPaddedRect vw vh
      (AnimationSystem.updateIcon realLibm vw vh dt1 icon g).1.tx
      (AnimationSystem.updateIcon realLibm vw vh dt1 icon g).1.ty := by
    rw [atx, aty]
    exact htgt
  obtain ⟨bx, by', btx, bty⟩ := AnimationSystem.updateIcon_real_far_pos vw vh dt2
    (AnimationSystem.updateIcon realLibm vw vh dt1 icon g).1 g hpos1 htgt1 h2 hd1
  obtain ⟨gt, gr, gs, go, gi⟩ := AnimationSystem.updateIcon_fields realLibm vw vh dt2
    (AnimationSystem.updateIcon realLibm vw vh dt1 icon g).1 g
  obtain ⟨cx, cy, ctx, cty⟩ := AnimationSystem.updateIcon_real_far_pos vw vh (dt1 + dt2) icon g
    hpos htgt (add_nonneg h1 h2) hd
  obtain ⟨ht, hr, hs, ho, hi⟩ :=
    AnimationSystem.updateIcon_fields realLibm vw vh (dt1 + dt2) icon g
  have hexp : Real.exp (-1.2 * (dt1 + dt2)) = Real.exp (-1.2 * dt1) * Real.exp (-1.2 * dt2) := by
    rw [← Real.exp_add]
    congr 1
    ring
  apply Icon.eq_of_fields
  · rw [bx, cx, ax, atx, hexp]
    ring
  · rw [by', cy, ay, aty, hexp]
    ring
  · rw [btx, ctx, atx]
  · rw [bty, cty, aty]
  · rw [gr, hr, fr, fi]
    ring
  · rw [gs, hs, ft, fi, add_assoc]
  · rw [go, ho, ft, fi, add_assoc]
  · rw [gt, ht, ft, add_assoc]
  · rw [gi, hi, fi]

/-- The pairing of `updateIcons_forall₂`, with the old icon known to come from the list. -/
theorem AnimationSystem.updateIcons_forall₂_mem {K : Type} [LinearOrderedField K] (m : Libm K)
    (vw vh dt : K) (l0 icons : List (Icon K)) (hsub : ∀ x ∈ icons, x ∈ l0) :
    ∀ g : Mt19937, List.Forall₂
      (fun old new => old ∈ l0 ∧ ∃ g', new = (AnimationSystem.updateIcon m vw vh dt old g').1)
      icons (AnimationSystem.updateIcons m vw vh dt icons g).1 := by
  induction icons with
  | nil => intro g; exact List.Forall₂.nil
  | cons icon rest ih =>
    intro g
    simp only [AnimationSystem.updateIcons]
    exact List.Forall₂.cons ⟨hsub icon (List.mem_cons_self _ _), g, rfl⟩
      (ih (fun x hx => hsub x (List.mem_cons_of_mem _ hx)) _)

/-- In the branch `dist > 5` the loop body of `update` does not read the engine. -/
theorem AnimationSystem.updateIcon_far_indep {K : Type} [LinearOrderedField K] (m : Libm K)
    (vw vh dt : K) (icon : Icon K) (g g' : Mt19937) (hd : icon.distance m > 5) :
    (AnimationSystem.updateIcon m vw vh dt icon g).1
      = (AnimationSystem.updateIcon m vw vh dt icon g').1 := by
  rw [AnimationSystem.updateIcon_far_eq m vw vh dt icon g hd,
    AnimationSystem.updateIcon_far_eq m vw vh dt icon g' hd]

/-- The icon at position `i` after the loop of `update` is the loop body run on the icon at
position `i`, with the engine as it stands at that iteration. -/
theorem AnimationSystem.updateIcons_getElem? {K : Type} [LinearOrderedField K] (m : Libm K)
    (vw vh dt : K) (icons : List (Icon K)) :
    ∀ (g : Mt19937) (i : Nat) (icon : Icon K), icons[i]? = some icon →
      ∃ g', (AnimationSystem.updateIcons m vw vh dt icons g).1[i]?
        = some (AnimationSystem.updateIcon m vw vh dt icon g').1 := by
  induction icons with
  | nil => intro g i icon h; simp at h
  | cons a rest ih =>
    intro g i icon h
    cases i with
    | zero =>
      simp only [List.getElem?_cons_zero, Option.some.injEq] at h
      subst h
      exact ⟨g, by simp [AnimationSystem.updateIcons]⟩
    | succ n =>
      simp only [List.getElem?_cons_succ] at h
      obtain ⟨g', hg'⟩ := ih (AnimationSystem.updateIcon m vw vh dt a g).2 n icon h
      exact ⟨g', by simpa [AnimationSystem.updateIcons] using hg'⟩

/-- C14. Over the reals, for `dt1, dt2 ≥ 0`, with `d` the distance of an icon to its target
and position and target both in the padded rectangle:
(1) for every `dt ≥ 0`, an icon with `d > 5` is at distance exactly `d * exp(-1.2 * dt)`
after `update(dt)`;
(2) an icon with `d * exp(-1.2 * dt1) > 5` has, after `update(dt1)` followed by
`update(dt2)`, the state it has after `update(dt1 + dt2)` (all nine fields), whatever the
other icons do;
(3) when this holds for every icon, the two system states are equal: icons, engine and
viewport. -/
theorem seekField_frame_rate_compensation (s : AnimationSystem ℝ) (dt1 dt2 : ℝ)
    (h1 : 0 ≤ dt1) (h2 : 0 ≤ dt2) :
    (∀ dt : ℝ, 0 ≤ dt →
      List.Forall₂ (fun old new =>
          AnimationSystem.inPaddedRect s.vw s.vh old.x old.y →
          AnimationSystem.inPaddedRect s.vw s.vh old.tx old.ty →
          5 < old.distance realLibm →
            new.distance realLibm = old.distance realLibm * Real.exp (-1.2 * dt))
        s.icons (s.update realLibm dt).icons) ∧
    (∀ (i : Nat) (icon : Icon ℝ), s.icons[i]? = some icon →
      AnimationSystem.inPaddedRect s.vw s.vh icon.x icon.y →
      AnimationSystem.inPaddedRect s.vw s.vh icon.tx icon.ty →
      5 < icon.distance realLibm * Real.exp (-1.2 * dt1) →
        ((s.update realLibm dt1).update realLibm dt2).icons[i]?
          = (s.update realLibm (dt1 + dt2)).icons[i]?) ∧
    ((∀ icon ∈ s.icons, AnimationSystem.inPaddedRect s.vw s.vh icon.x icon.y ∧
        AnimationSystem.inPaddedRect s.vw s.vh icon.tx icon.ty ∧
        5 < icon.distance realLibm * Real.exp (-1.2 * dt1)) →
      (s.update realLibm dt1).update realLibm dt2 = s.update realLibm (dt1 + dt2)) := by
  refine ⟨?_, ?_, ?_⟩
  · intro dt hdt
    refine List.Forall₂.imp ?_
      (AnimationSystem.updateIcons_forall₂ realLibm s.vw s.vh dt s.icons s.rng)
    rintro old new ⟨g, rfl⟩ hpos htgt hd
    exact AnimationSystem.updateIcon_real_far_distance s.vw s.vh dt old g hpos htgt hdt hd
  · intro i icon hi hpos htgt hfar
    obtain ⟨g1, e1⟩ :=
      AnimationSystem.updateIcons_getElem? realLibm s.vw s.vh dt1 s.icons s.rng i icon hi
    obtain ⟨g2, e2⟩ := AnimationSystem.updateIcons_getElem? realLibm s.vw s.vh dt2
      (AnimationSystem.updateIcons realLibm s.vw s.vh dt1 s.icons s.rng).1
      (AnimationSystem.updateIcons realLibm s.vw s.vh dt1 s.icons s.rng).2 i _ e1
    obtain ⟨g3, e3⟩ := AnimationSystem.updateIcons_getElem? realLibm s.vw s.vh (dt1 + dt2)
      s.icons s.rng i icon hi
    obtain ⟨hd, hd1, hc⟩ :=
      AnimationSystem.updateIcon_real_compose s.vw s.vh dt1 dt2 icon g1 hpos htgt h1 h2 hfar
    show (AnimationSystem.updateIcons realLibm s.vw s.vh dt2
        (AnimationSystem.updateIcons realLibm s.vw s.vh dt1 s.icons s.rng).1
        (AnimationSystem.updateIcons realLibm s.vw s.vh dt1 s.icons s.rng).2).1[i]?
      = (AnimationSystem.updateIcons realLibm s.vw s.vh (dt1 + dt2) s.icons s.rng).1[i]?
    rw [e2, e3, AnimationSystem.updateIcon_far_indep realLibm s.vw s.vh dt2 _ g2 g1 hd1,
      AnimationSystem.updateIcon_far_indep realLibm s.vw s.vh (dt1 + dt2) icon g3 g1 hd, hc]
  · intro hall
    have hc := fun icon (hi : icon ∈ s.icons) =>
      AnimationSystem.updateIcon_real_compose s.vw s.vh dt1 dt2 icon s.rng (hall icon hi).1
        (hall icon hi).2.1 h1 h2 (hall icon hi).2.2
    have e1 := AnimationSystem.updateIcons_all_far realLibm s.vw s.vh dt1 s.rng s.icons
      (fun icon hi => (hc icon hi).1)
    have e12 := AnimationSystem.updateIcons_all_far realLibm s.vw s.vh (dt1 + dt2) s.rng s.icons
      (fun icon hi => (hc icon hi).1)
    have e2 := AnimationSystem.updateIcons_all_far realLibm s.vw s.vh dt2 s.rng
      (s.icons.map (fun icon => (AnimationSystem.updateIcon realLibm s.vw s.vh dt1 icon s.rng).1))
      (by
        intro icon hi
        rw [List.mem_map] at hi
        obtain ⟨old, ho, rfl⟩ := hi
        exact (hc old ho).2.1)
    simp only [AnimationSystem.update, e1, e2, e12, List.map_map]
    congr 1
    apply List.map_congr_left
    intro icon hi
    exact (hc icon hi).2.2

/-- C14 on the scenario `configure(800, 600); addParticle(0, 400, 300)`: the icon is `250`
away from its target, and two frames of `1/60` give the state of one frame of `2/60`. -/
theorem seekField_frame_rate_compensation_witness :
    ((0 : ℝ) ≤ 1 / 60) ∧
    ((seekScenario : AnimationSystem ℝ).update realLibm (1 / 60)).update realLibm (1 / 60)
      = (seekScenario : AnimationSystem ℝ).update realLibm (1 / 60 + 1 / 60) := by
  have hvw : (seekScenario : AnimationSystem ℝ).vw = 800 := rfl
  have hvh : (seekScenario : AnimationSystem ℝ).vh = 600 := rfl
  have hin : ∀ icon ∈ (seekScenario : AnimationSystem ℝ).icons,
      AnimationSystem.inPaddedRect (seekScenario : AnimationSystem ℝ).vw
        (seekScenario : AnimationSystem ℝ).vh icon.x icon.y ∧
      AnimationSystem.inPaddedRect (seekScenario : AnimationSystem ℝ).vw
        (seekScenario : AnimationSystem ℝ).vh icon.tx icon.ty := by
    rw [seekScenario_icons, hvw, hvh]
    intro icon hi
    rw [List.mem_singleton] at hi
    subst hi
    norm_num [AnimationSystem.inPaddedRect, AnimationSystem.pad]
  have hfar : ∀ icon ∈ (seekScenario : AnimationSystem ℝ).icons,
      5 < icon.distance realLibm * Real.exp (-1.2 * (1 / 60)) := by
    rw [seekScenario_icons]
    intro icon hi
    rw [List.mem_singleton] at hi
    subst hi
    have hd : (250 : ℝ) ≤ Icon.distance realLibm
        { x := 400, y := 300, tx := 550, ty := 100, rot := 252, scale := 0.6,
          opacity := 0.62, time := 0, id := 0 } := by
      simp only [Icon.distance, realLibm]
      rw [Real.le_sqrt' (by norm_num)]
      norm_num
    have he : (0.98 : ℝ) ≤ Real.exp (-1.2 * (1 / 60)) := by
      have := Real.add_one_le_exp (-1.2 * (1 / 60) : ℝ)
      norm_num at this ⊢
      linarith
    nlinarith
  exact ⟨by norm_num,
    (seekField_frame_rate_compensation (seekScenario : AnimationSystem ℝ) (1 / 60) (1 / 60)
      (by norm_num) (by norm_num)).2.2
      (fun icon hi => ⟨(hin icon hi).1, (hin icon hi).2, hfar icon hi⟩)⟩

/-! ## C15 : the icons of one `update` and the shared engine -/

/-- The targets that `update` assigns in `twinAB`: icon `0` is served first and receives
`(100, 200)`, icon `1` receives `(400, 400)`. -/
theorem twinAB_update_targets :
    ((twinAB : AnimationSystem ℝ).update realLibm (1 / 60)).icons.map
      (fun icon => (icon.id, icon.tx, icon.ty)) = [(0, 100, 200), (1, 400, 400)] := by
  simp [AnimationSystem.update, AnimationSystem.updateIcons, AnimationSystem.updateIcon,
    AnimationSystem.newTarget, twinAB, Icon.new, realLibm, AnimationSystem.pad, uniformReal,
    generateCanonical, Mt19937.next, sampleRng]
  norm_num

/-- The targets that `update` assigns in `twinBA`: icon `1` is served first and receives
`(100, 200)`, icon `0` receives `(400, 400)`. -/
theorem twinBA_update_targets :
    ((twinBA : AnimationSystem ℝ).update realLibm (1 / 60)).icons.map
      (fun icon => (icon.id, icon.tx, icon.ty)) = [(1, 100, 200), (0, 400, 400)] := by
  simp [AnimationSystem.update, AnimationSystem.updateIcons, AnimationSystem.updateIcon,
    AnimationSystem.newTarget, twinBA, Icon.new, realLibm, AnimationSystem.pad, uniformReal,
    generateCanonical, Mt19937.next, sampleRng]
  norm_num

/-- C15, refuted as stated: `twinAB` and `twinBA` hold the same two icons in the two
orders, with the same viewport and the same engine state; both icons retarget, and the
results of `update` are not the same icons reordered: icon `0` receives the target
`(100, 200)` when it comes first and `(400, 400)` when it comes second. -/
theorem seekField_independence_counterexample :
    List.Perm (twinAB : AnimationSystem ℝ).icons (twinBA : AnimationSystem ℝ).icons ∧
    (twinAB : AnimationSystem ℝ).rng = (twinBA : AnimationSystem ℝ).rng ∧
    (twinAB : AnimationSystem ℝ).vw = (twinBA : AnimationSystem ℝ).vw ∧
    (twinAB : AnimationSystem ℝ).vh = (twinBA : AnimationSystem ℝ).vh ∧
    ¬ List.Perm ((twinAB : AnimationSystem ℝ).update realLibm (1 / 60)).icons
        ((twinBA : AnimationSystem ℝ).update realLibm (1 / 60)).icons := by
  refine ⟨List.Perm.swap _ _ _, rfl, rfl, rfl, ?_⟩
  intro h
  have hmap := h.map (fun icon : Icon ℝ => (icon.id, icon.tx, icon.ty))
  rw [twinAB_update_targets, twinBA_update_targets] at hmap
  have hmem : ((0 : Int), (100 : ℝ), (200 : ℝ)) ∈ [((1 : Int), (100 : ℝ), (200 : ℝ)),
      ((0 : Int), (400 : ℝ), (400 : ℝ))] := hmap.mem_iff.mp (List.mem_cons_self _ _)
  simp only [List.mem_cons, Prod.mk.injEq, List.mem_singleton] at hmem
  norm_num at hmem

section Independence

variable {K : Type} [LinearOrderedField K]

/-- Apart from the target, the loop body of `update` does not read the engine. -/
theorem AnimationSystem.updateIcon_eraseTarget (m : Libm K) (vw vh dt : K) (icon : Icon K)
    (g g' : Mt19937) :
    (updateIcon m vw vh dt icon g).1.eraseTarget
      = (updateIcon m vw vh dt icon g').1.eraseTarget := by
  simp only [updateIcon, newTarget, Icon.eraseTarget]
  split_ifs <;> rfl

/-- Apart from the targets, the loop of `update` is a map of the loop body. -/
theorem AnimationSystem.updateIcons_eraseTarget (m : Libm K) (vw vh dt : K) (g0 : Mt19937)
    (icons : List (Icon K)) :
    ∀ g : Mt19937, (updateIcons m vw vh dt icons g).1.map Icon.eraseTarget
      = icons.map (fun icon => (updateIcon m vw vh dt icon g0).1.eraseTarget) := by
  induction icons with
  | nil => intro g; rfl
  | cons icon rest ih =>
    intro g
    simp only [updateIcons, List.map_cons, ih, updateIcon_eraseTarget m vw vh dt icon g g0]

end Independence

/-- C15, amended. For two systems with the same viewport holding the same icons in two
orders: (1) whatever the two engine states, the results of `update(dt)` with the targets
forgotten (position, rotation, scale, opacity, time, id) are the same, reordered; (2) each
resulting icon is the loop body run on the icon at the same position, with the engine as
it stands when its turn comes, which is the only route by which the other icons and the
order act on it, through a newly drawn target; (3) when the engines are equal and no icon
retargets (every distance `> 5`), the full results are the same, reordered, and the
engine is left as it was. -/
theorem seekField_independence {K : Type} [LinearOrderedField K] (m : Libm K)
    (s s' : AnimationSystem K) (dt : K) (hvw : s'.vw = s.vw) (hvh : s'.vh = s.vh)
    (hperm : List.Perm s.icons s'.icons) :
    List.Perm ((s.update m dt).icons.map Icon.eraseTarget)
      ((s'.update m dt).icons.map Icon.eraseTarget) ∧
    List.Forall₂ (fun old new =>
        ∃ g, new = (AnimationSystem.updateIcon m s.vw s.vh dt old g).1)
      s.icons (s.update m dt).icons ∧
    (s'.rng = s.rng → (∀ icon ∈ s.icons, icon.distance m > 5) →
      List.Perm (s.update m dt).icons (s'.update m dt).icons ∧
        (s.update m dt).rng = s.rng ∧ (s'.update m dt).rng = s.rng) := by
  refine ⟨?_, AnimationSystem.updateIcons_forall₂ m s.vw s.vh dt s.icons s.rng, ?_⟩
  · simp only [AnimationSystem.update, hvw, hvh]
    rw [AnimationSystem.updateIcons_eraseTarget m s.vw s.vh dt s.rng s.icons s.rng,
      AnimationSystem.updateIcons_eraseTarget m s.vw s.vh dt s.rng s'.icons s'.rng]
    exact hperm.map _
  · intro hrng hfar
    have hfar' : ∀ icon ∈ s'.icons, icon.distance m > 5 :=
      fun icon hi => hfar icon (hperm.mem_iff.mpr hi)
    simp only [AnimationSystem.update, hvw, hvh, hrng,
      AnimationSystem.updateIcons_all_far m s.vw s.vh dt s.rng s.icons hfar,
      AnimationSystem.updateIcons_all_far m s.vw s.vh dt s.rng s'.icons hfar']
    exact ⟨hperm.map _, trivial, trivial⟩

/-- C15 (amended) on `twinAB` and `twinBA`: with the targets forgotten, the results of
`update` are the same two icons, reordered. -/
theorem seekField_independence_witness :
    List.Perm (twinAB : AnimationSystem ℝ).icons (twinBA : AnimationSystem ℝ).icons ∧
    List.Perm (((twinAB : AnimationSystem ℝ).update realLibm (1 / 60)).icons.map
        Icon.eraseTarget)
      (((twinBA : AnimationSystem ℝ).update realLibm (1 / 60)).icons.map Icon.eraseTarget) :=
  ⟨List.Perm.swap _ _ _,
    (seekField_independence realLibm (twinAB : AnimationSystem ℝ) twinBA (1 / 60) rfl rfl
      (List.Perm.swap _ _ _)).1⟩

/-! ## C16 : the padded rectangle and viewports of at least `2 * pad` -/

section Targets

variable {K : Type} [LinearOrderedField K]

/-- The loop body of `update` keeps a target that is in the padded rectangle, or draws a
new one in it. -/
theorem AnimationSystem.updateIcon_target (m : Libm K) (vw vh dt : K) (icon : Icon K)
    (g : Mt19937) (hvw : 200 ≤ vw) (hvh : 200 ≤ vh)
    (h : inPaddedRect vw vh icon.tx icon.ty) :
    inPaddedRect vw vh (updateIcon m vw vh dt icon g).1.tx (updateIcon m vw vh dt icon g).1.ty := by
  by_cases hd : icon.distance m > 5
  · obtain ⟨-, -, htx, hty, -⟩ := updateIcon_of_far m vw vh dt icon g hd
    rw [htx, hty]
    exact h
  · obtain ⟨-, -, htx, hty, -⟩ := updateIcon_of_near m vw vh dt icon g hd
    rw [htx, hty]
    exact newTarget_inPaddedRect vw vh g hvw hvh

/-- The icon appended by `addIcon`: its target is the pair drawn by `newTarget` after the
three draws for scale, rotation and opacity. -/
theorem AnimationSystem.addIcon_icons (s : AnimationSystem K) (id : Int) (x y : K) :
    ∃ icon : Icon K, (s.addIcon id x y).icons = s.icons ++ [icon] ∧ icon.id = id ∧
      icon.x = x ∧ icon.y = y ∧ ∃ g : Mt19937,
        icon.tx = (uniformReal pad (s.vw - pad) g).1 ∧
        icon.ty = (uniformReal pad (s.vh - pad) (uniformReal pad (s.vw - pad) g).2).1 :=
  ⟨_, rfl, rfl, rfl, rfl, _, rfl, rfl⟩

end Targets

/-- C17. With the stored width and height `≥ 200`: `addIcon` gives the new icon a target in
`[pad, vw - pad] × [pad, vh - pad]`, and the property that every icon has its target in the
padded rectangle of the stored viewport is preserved by `addIcon`, `update` and `scroll`;
with new dimensions `≥ 200` it holds after `resize(w, h)` for the new viewport, from any
state. -/
theorem seekField_target_invariant {K : Type} [LinearOrderedField K] (m : Libm K)
    (s : AnimationSystem K) (id : Int) (x y dt p w h : K)
    (hvw : 200 ≤ s.vw) (hvh : 200 ≤ s.vh) (hw : 200 ≤ w) (hh : 200 ≤ h) :
    (∃ icon : Icon K, (s.addIcon id x y).icons = s.icons ++ [icon] ∧
      AnimationSystem.inPaddedRect (s.addIcon id x y).vw (s.addIcon id x y).vh
        icon.tx icon.ty) ∧
    (s.targetsInRect → (s.addIcon id x y).targetsInRect) ∧
    (s.targetsInRect → (s.update m dt).targetsInRect) ∧
    (s.targetsInRect → (s.scroll p).targetsInRect) ∧
    (s.resize w h).targetsInRect := by
  obtain ⟨icon, hicons, -, -, -, g, htx, hty⟩ := AnimationSystem.addIcon_icons s id x y
  have hnew : AnimationSystem.inPaddedRect s.vw s.vh icon.tx icon.ty := by
    rw [htx, hty]
    exact AnimationSystem.newTarget_inPaddedRect s.vw s.vh g hvw hvh
  refine ⟨⟨icon, hicons, hnew⟩, ?_, ?_, ?_, ?_⟩
  · intro hs i hi
    rw [hicons, List.mem_append, List.mem_singleton] at hi
    rcases hi with hi | rfl
    · exact hs i hi
    · exact hnew
  · intro hs i hi
    obtain ⟨old, hold, g', rfl⟩ :=
      AnimationSystem.updateIcons_mem m s.vw s.vh dt s.icons s.rng i hi
    exact AnimationSystem.updateIcon_target m s.vw s.vh dt _ g' hvw hvh (hs _ hold)
  · intro hs i hi
    simp only [AnimationSystem.scroll, List.mem_map] at hi
    obtain ⟨old, ho, rfl⟩ := hi
    exact hs old ho
  · intro i hi
    exact (AnimationSystem.resize_inPaddedRect s w h hw hh i hi).2

/-- C17 on the scenario `configure(800, 600); addParticle(0, 400, 300)`: the target
`(550, 100)` is in the padded rectangle, and the targets are in it after one more
`addIcon`, after `update`, and after `resize(1024, 768)`. -/
theorem seekField_target_invariant_witness :
    (200 : ℝ) ≤ (seekScenario : AnimationSystem ℝ).vw ∧
    (200 : ℝ) ≤ (seekScenario : AnimationSystem ℝ).vh ∧
    (seekScenario : AnimationSystem ℝ).targetsInRect ∧
    ((seekScenario : AnimationSystem ℝ).addIcon 1 0 0).targetsInRect ∧
    ((seekScenario : AnimationSystem ℝ).update realLibm (1 / 60)).targetsInRect ∧
    ((seekScenario : AnimationSystem ℝ).resize 1024 768).targetsInRect := by
  have hvw : (seekScenario : AnimationSystem ℝ).vw = 800 := rfl
  have hvh : (seekScenario : AnimationSystem ℝ).vh = 600 := rfl
  have ht : (seekScenario : AnimationSystem ℝ).targetsInRect := by
    unfold AnimationSystem.targetsInRect
    rw [seekScenario_icons, hvw, hvh]
    intro icon hi
    rw [List.mem_singleton] at hi
    subst hi
    norm_num [AnimationSystem.inPaddedRect, AnimationSystem.pad]
  have h := seekField_target_invariant realLibm (seekScenario : AnimationSystem ℝ) 1 0 0
    (1 / 60) 0 1024 768 (by rw [hvw]; norm_num) (by rw [hvh]; norm_num) (by norm_num)
    (by norm_num)
  exact ⟨by rw [hvw]; norm_num, by rw [hvh]; norm_num, ht, h.2.1 ht, h.2.2.1 ht, h.2.2.2.2⟩

/-! ## The oscillation of scale and opacity in exact arithmetic -/

/-- The oscillation in exact real arithmetic: after `update(dt)` every icon has
`scale = 0.7 + 0.3 * sin((time + dt) * (0.5 + id * 0.1))` in `[0.4, 1.0]` and
`opacity = 0.2 + 0.3 * sin((time + dt) * (0.3 + id * 0.05))` in `[-0.1, 0.5]`, with `time`
and `id` those of the icon before the call; the scale and opacity before the call (those
drawn by `addIcon`) are not read. The `float` of the source rounds: see the binary32
statements at the end of the file for its bounds. -/
theorem seekField_oscillation (s : AnimationSystem ℝ) (dt : ℝ) :
    (∀ icon ∈ (s.update realLibm dt).icons,
      (0.4 ≤ icon.scale ∧ icon.scale ≤ 1.0) ∧ (-0.1 ≤ icon.opacity ∧ icon.opacity ≤ 0.5)) ∧
    List.Forall₂ (fun old new =>
        new.scale = 0.7 + 0.3 * Real.sin ((old.time + dt) * (0.5 + (old.id : ℝ) * 0.1)) ∧
        new.opacity = 0.2 + 0.3 * Real.sin ((old.time + dt) * (0.3 + (old.id : ℝ) * 0.05)))
      s.icons (s.update realLibm dt).icons := by
  constructor
  · intro icon hi
    obtain ⟨old, -, g, rfl⟩ :=
      AnimationSystem.updateIcons_mem realLibm s.vw s.vh dt s.icons s.rng icon hi
    obtain ⟨-, -, hs, ho, -⟩ := AnimationSystem.updateIcon_fields realLibm s.vw s.vh dt old g
    rw [hs, ho]
    have h1 := Real.neg_one_le_sin ((old.time + dt) * (0.5 + (old.id : ℝ) * 0.1))
    have h2 := Real.sin_le_one ((old.time + dt) * (0.5 + (old.id : ℝ) * 0.1))
    have h3 := Real.neg_one_le_sin ((old.time + dt) * (0.3 + (old.id : ℝ) * 0.05))
    have h4 := Real.sin_le_one ((old.time + dt) * (0.3 + (old.id : ℝ) * 0.05))
    simp only [realLibm]
    refine ⟨⟨?_, ?_⟩, ⟨?_, ?_⟩⟩ <;> norm_num <;> linarith
  · refine List.Forall₂.imp ?_
      (AnimationSystem.updateIcons_forall₂ realLibm s.vw s.vh dt s.icons s.rng)
    rintro old new ⟨g, rfl⟩
    obtain ⟨-, -, hs, ho, -⟩ := AnimationSystem.updateIcon_fields realLibm s.vw s.vh dt old g
    exact ⟨hs, ho⟩

/-- The exact-arithmetic bounds are reached: with `id = 5` the scale is
`0.7 + 0.3 * sin(time + dt)`, which is `1.0` at `time + dt = π/2`; with `id = 14` the
opacity is `0.2 + 0.3 * sin(time + dt)`, which is `-0.1` at `time + dt = π + π/2`. -/
theorem seekField_oscillation_extremes :
    (AnimationSystem.updateIcon realLibm 800 600 (Real.pi / 2)
      { x := 400, y := 300, tx := 400, ty := 300, rot := 0, scale := 1, opacity := 0.3,
        time := 0, id := 5 } sampleRng).1.scale = 1 ∧
    (AnimationSystem.updateIcon realLibm 800 600 (Real.pi + Real.pi / 2)
      { x := 400, y := 300, tx := 400, ty := 300, rot := 0, scale := 1, opacity := 0.3,
        time := 0, id := 14 } sampleRng).1.opacity = -0.1 := by
  constructor
  · rw [(AnimationSystem.updateIcon_fields realLibm 800 600 (Real.pi / 2) _ sampleRng).2.2.1]
    have h : ((0 : ℝ) + Real.pi / 2) * (0.5 + ((5 : Int) : ℝ) * 0.1) = Real.pi / 2 := by
      norm_num
    simp only [realLibm]
    rw [h, Real.sin_pi_div_two]
    norm_num
  · rw [(AnimationSystem.updateIcon_fields realLibm 800 600 (Real.pi + Real.pi / 2) _
      sampleRng).2.2.2.1]
    have h : ((0 : ℝ) + (Real.pi + Real.pi / 2)) * (0.3 + ((14 : Int) : ℝ) * 0.05)
        = Real.pi + Real.pi / 2 := by
      norm_num
    simp only [realLibm]
    rw [h, Real.sin_add_pi_div_two, Real.cos_pi]
    norm_num

/-! ## C19 : two `resize` calls of the flower systems in a row -/

/-- C19. In both flower systems, with non-zero stored dimensions and a non-zero
intermediate `(w1, h1)`, `resize(w1, h1)` followed by `resize(w2, h2)` gives the same state
as `resize(w2, h2)` alone; in particular resizing to `(w1, h1)` and back to the stored
dimensions returns the state it started from. -/
theorem driftField_resize_compose {K : Type} [LinearOrderedField K]
    (a : AboutAnimationSystem K) (b : FooterAnimationSystem K) (w1 h1 w2 h2 : K)
    (haw : a.width ≠ 0) (hah : a.height ≠ 0) (hbw : b.width ≠ 0) (hbh : b.height ≠ 0)
    (hw1 : w1 ≠ 0) (hh1 : h1 ≠ 0) :
    ((a.resize w1 h1).resize w2 h2 = a.resize w2 h2 ∧
      (a.resize w1 h1).resize a.width a.height = a) ∧
    ((b.resize w1 h1).resize w2 h2 = b.resize w2 h2 ∧
      (b.resize w1 h1).resize b.width b.height = b) := by
  have hx : ∀ (x W w : K), W ≠ 0 → x * (w1 / W) * (w / w1) = x * (w / W) := by
    intro x W w hW
    field_simp
    ring
  have hy : ∀ (y H h : K), H ≠ 0 → y * (h1 / H) * (h / h1) = y * (h / H) := by
    intro y H h hH
    field_simp
    ring
  have ha : ∀ w h : K, (a.resize w1 h1).resize w h = a.resize w h := by
    intro w h
    simp only [AboutAnimationSystem.resize, AboutAnimationSystem.setDimensions, List.map_map,
      Function.comp_def, hx _ _ _ haw, hy _ _ _ hah]
  have hb : ∀ w h : K, (b.resize w1 h1).resize w h = b.resize w h := by
    intro w h
    simp only [FooterAnimationSystem.resize, FooterAnimationSystem.setDimensions, List.map_map,
      Function.comp_def, hx _ _ _ hbw, hy _ _ _ hbh]
  refine ⟨⟨ha w2 h2, ?_⟩, ⟨hb w2 h2, ?_⟩⟩
  · rw [ha]
    simp only [AboutAnimationSystem.resize, AboutAnimationSystem.setDimensions, div_self haw,
      div_self hah, mul_one]
    simp
  · rw [hb]
    simp only [FooterAnimationSystem.resize, FooterAnimationSystem.setDimensions, div_self hbw,
      div_self hbh, mul_one]
    simp

/-- C19 at the sample systems (`1000 × 800`): through `(640, 480)` to `(1920, 1080)`, and
through `(640, 480)` back to `(1000, 800)`. -/
theorem driftField_resize_compose_witness :
    (((sampleAbout : AboutAnimationSystem ℚ).resize 640 480).resize 1920 1080
        = (sampleAbout : AboutAnimationSystem ℚ).resize 1920 1080 ∧
      ((sampleAbout : AboutAnimationSystem ℚ).resize 640 480).resize 1000 800 = sampleAbout) ∧
    (((sampleFooter : FooterAnimationSystem ℚ).resize 640 480).resize 1920 1080
        = (sampleFooter : FooterAnimationSystem ℚ).resize 1920 1080 ∧
      ((sampleFooter : FooterAnimationSystem ℚ).resize 640 480).resize 1000 800
        = sampleFooter) :=
  driftField_resize_compose (sampleAbout : AboutAnimationSystem ℚ)
    (sampleFooter : FooterAnimationSystem ℚ) 640 480 1920 1080
    (by norm_num [sampleAbout]) (by norm_num [sampleAbout])
    (by norm_num [sampleFooter]) (by norm_num [sampleFooter]) (by norm_num) (by norm_num)

/-! ## C18 : the oscillation of scale and opacity, in binary32 -/

section Rounding

variable {K : Type} [LinearOrderedField K]

/-- A binary32 value is nearest to itself. -/
theorem RoundsTo.self {x : K} (hx : IsF32 x) : RoundsTo x x :=
  ⟨hx, fun z _ => by simp⟩

/-- An operation whose exact result is a binary32 value returns that value. -/
theorem RoundsTo.eq_of_isF32 {x y : K} (hx : IsF32 x) (h : RoundsTo x y) : y = x := by
  have := h.2 x hx
  simp only [sub_self, abs_zero] at this
  have h0 : |x - y| = 0 := le_antisymm this (abs_nonneg _)
  rw [abs_eq_zero, sub_eq_zero] at h0
  exact h0.symm

/-- Rounding does not cross a binary32 value from below. -/
theorem RoundsTo.le_of_le {x y b : K} (hb : IsF32 b) (hxb : x ≤ b) (h : RoundsTo x y) :
    y ≤ b := by
  by_contra hc
  push_neg at hc
  have := h.2 b hb
  rw [abs_of_nonpos (by linarith), abs_of_nonpos (by linarith)] at this
  linarith

/-- Rounding does not cross a binary32 value from above. -/
theorem RoundsTo.ge_of_ge {x y a : K} (ha : IsF32 a) (hax : a ≤ x) (h : RoundsTo x y) :
    a ≤ y := by
  by_contra hc
  push_neg at hc
  have := h.2 a ha
  rw [abs_of_nonneg (by linarith), abs_of_nonneg (by linarith)] at this
  linarith

/-- A binary32 value of magnitude at least `1 / 2^j` is a multiple of `1 / 2^(23+j)`. -/
theorem IsF32.grid (j : ℕ) {z : K} (hz : IsF32 z) (h : 1 / 2 ^ j ≤ |z|) :
    ∃ n : ℤ, z = (n : K) / 2 ^ (23 + j) := by
  obtain ⟨m, e, hm, ⟨-, rfl⟩ | ⟨-, rfl⟩⟩ := hz
  · refine ⟨m * 2 ^ e * 2 ^ (23 + j), ?_⟩
    push_cast
    field_simp
  · by_cases he : e ≤ 23 + j
    · refine ⟨m * 2 ^ (23 + j - e), ?_⟩
      push_cast
      rw [div_eq_div_iff (by positivity) (by positivity), mul_assoc, ← pow_add,
        Nat.sub_add_cancel he]
    · exfalso
      push_neg at he
      have hm' : ((|m| : Int) : K) < 2 ^ 24 := by exact_mod_cast hm
      have hpow : (2 : K) ^ (24 + j) ≤ 2 ^ e :=
        pow_le_pow_right₀ (by norm_num) (by omega)
      rw [abs_div, abs_of_pos (by positivity : (0 : K) < 2 ^ e), ← Int.cast_abs,
        div_le_div_iff₀ (by positivity) (by positivity), one_mul] at h
      have h2 : (2 : K) ^ (24 + j) = 2 ^ 24 * 2 ^ j := pow_add _ _ _
      have hj : (0 : K) < 2 ^ j := by positivity
      nlinarith

/-- Near a grid point `c / 2^(23+j)` of magnitude above `1 / 2^j`, the nearest binary32 value
is that grid point. -/
theorem RoundsTo.eq_of_grid (j : ℕ) (c : ℤ) {x y : K} (h : RoundsTo x y)
    (hc : IsF32 ((c : K) / 2 ^ (23 + j)))
    (hx : |x - (c : K) / 2 ^ (23 + j)| < 1 / 2 ^ (24 + j))
    (hbig : 1 / 2 ^ j + 1 / 2 ^ (24 + j) ≤ |x|) :
    y = (c : K) / 2 ^ (23 + j) := by
  have hle := h.2 _ hc
  have hxy : |x - y| < 1 / 2 ^ (24 + j) := lt_of_le_of_lt hle hx
  have hy : 1 / 2 ^ j ≤ |y| := by
    have h1 : |x| ≤ |x - y| + |y| := by
      have := abs_add (x - y) y
      simpa using this
    linarith
  obtain ⟨n, hn⟩ := h.1.grid j hy
  have hP : (0 : K) < 2 ^ (23 + j) := by positivity
  have h2 : (2 : K) ^ (24 + j) = 2 * 2 ^ (23 + j) := by
    rw [show 24 + j = (23 + j) + 1 by omega, pow_succ]
    ring
  have hd : |y - (c : K) / 2 ^ (23 + j)| < 1 / 2 ^ (23 + j) := by
    have h3 : |y - (c : K) / 2 ^ (23 + j)| ≤ |x - y| + |x - (c : K) / 2 ^ (23 + j)| := by
      have := abs_sub_le y x ((c : K) / 2 ^ (23 + j))
      rw [abs_sub_comm y x] at this
      exact this
    have h4 : (1 : K) / 2 ^ (24 + j) + 1 / 2 ^ (24 + j) = 1 / 2 ^ (23 + j) := by
      rw [h2]
      field_simp
      ring
    linarith
  rw [hn, ← sub_div, abs_div, abs_of_pos hP, div_lt_div_iff₀ hP hP] at hd
  have hd' : |((n - c : ℤ) : K)| < 1 := by
    push_cast
    nlinarith
  rw [← Int.cast_abs] at hd'
  have hz : |n - c| < 1 := by exact_mod_cast hd'
  have hnc : n = c := by
    have := abs_lt.mp hz
    omega
  rw [hn, hnc]

/-- A grid point `c / 2^(23+j)` within half a grid step of `x`, of magnitude above
`1 / 2^j`, is a binary32 value nearest to `x`. -/
theorem RoundsTo.of_grid (j : ℕ) (c : ℤ) {x : K}
    (hc : IsF32 ((c : K) / 2 ^ (23 + j)))
    (hx : |x - (c : K) / 2 ^ (23 + j)| ≤ 1 / 2 ^ (24 + j))
    (hbig : 1 / 2 ^ j + 1 / 2 ^ (24 + j) ≤ |x|) :
    RoundsTo x ((c : K) / 2 ^ (23 + j)) := by
  refine ⟨hc, fun z hz => ?_⟩
  by_contra hlt
  push_neg at hlt
  have hxz : |x - z| < 1 / 2 ^ (24 + j) := lt_of_lt_of_le hlt hx
  have hzb : 1 / 2 ^ j ≤ |z| := by
    have h1 : |x| ≤ |x - z| + |z| := by
      have := abs_add (x - z) z
      simpa using this
    linarith
  obtain ⟨n, hn⟩ := hz.grid j hzb
  have hP : (0 : K) < 2 ^ (23 + j) := by positivity
  have h2 : (2 : K) ^ (24 + j) = 2 * 2 ^ (23 + j) := by
    rw [show 24 + j = (23 + j) + 1 by omega, pow_succ]
    ring
  have hd : |z - (c : K) / 2 ^ (23 + j)| < 1 / 2 ^ (23 + j) := by
    have h3 : |z - (c : K) / 2 ^ (23 + j)| ≤ |x - z| + |x - (c : K) / 2 ^ (23 + j)| := by
      have := abs_sub_le z x ((c : K) / 2 ^ (23 + j))
      rw [abs_sub_comm z x] at this
      exact this
    have h4 : (1 : K) / 2 ^ (24 + j) + 1 / 2 ^ (24 + j) = 1 / 2 ^ (23 + j) := by
      rw [h2]
      field_simp
      ring
    linarith
  rw [hn, ← sub_div, abs_div, abs_of_pos hP, div_lt_div_iff₀ hP hP] at hd
  have hd' : |((n - c : ℤ) : K)| < 1 := by
    push_cast
    nlinarith
  rw [← Int.cast_abs] at hd'
  have hz' : |n - c| < 1 := by exact_mod_cast hd'
  have hnc : n = c := by
    have := abs_lt.mp hz'
    omega
  rw [hn, hnc] at hlt
  exact lt_irrefl _ hlt

/-- A value written `m / 2^e` with `|m| < 2^24`, `e ≤ 149` is a binary32 value. -/
theorem IsF32.of_eq_div (m : Int) (e : Nat) {x : K} (hm : |m| < 2 ^ 24) (he : e ≤ 149)
    (hx : x = (m : K) / 2 ^ e) : IsF32 x :=
  ⟨m, e, hm, Or.inr ⟨he, hx⟩⟩

/-- An exact result that is a binary32 value is returned as it is. -/
theorem RoundsTo.of_eq {x y : K} (hy : IsF32 y) (h : x = y) : RoundsTo x y := by
  subst h
  exact RoundsTo.self hy

/-- The binary32 values used below. -/
theorem isF32_consts (K : Type) [LinearOrderedField K] :
    IsF32 (f32_0_7 : K) ∧ IsF32 (f32_0_3 : K) ∧ IsF32 (-f32_0_3 : K) ∧ IsF32 (f32_0_2 : K) ∧
    IsF32 (1 : K) ∧ IsF32 (-1 : K) ∧ IsF32 (1 / 2 : K) ∧ IsF32 (0 : K) ∧
    IsF32 (f32_0_7 - f32_0_3 : K) ∧ IsF32 (f32_0_2 - f32_0_3 : K) := by
  refine ⟨IsF32.of_eq_div 11744051 24 (by norm_num) (by norm_num) (by norm_num [f32_0_7]),
    IsF32.of_eq_div 10066330 25 (by norm_num) (by norm_num) (by norm_num [f32_0_3]),
    IsF32.of_eq_div (-10066330) 25 (by norm_num) (by norm_num) (by norm_num [f32_0_3]),
    IsF32.of_eq_div 13421773 26 (by norm_num) (by norm_num) (by norm_num [f32_0_2]),
    IsF32.of_eq_div 1 0 (by norm_num) (by norm_num) (by norm_num),
    IsF32.of_eq_div (-1) 0 (by norm_num) (by norm_num) (by norm_num),
    IsF32.of_eq_div 1 1 (by norm_num) (by norm_num) (by norm_num),
    IsF32.of_eq_div 0 0 (by norm_num) (by norm_num) (by norm_num),
    IsF32.of_eq_div 13421772 25 (by norm_num) (by norm_num) (by norm_num [f32_0_7, f32_0_3]),
    IsF32.of_eq_div (-6710887) 26 (by norm_num) (by norm_num) (by norm_num [f32_0_2, f32_0_3])⟩

/-- The range of `0.7f + 0.3f * sv` in binary32 for `sv` in `[-1, 1]`. -/
theorem AffineF32.scale_mem {sv r : K} (h1 : -1 ≤ sv) (h2 : sv ≤ 1)
    (h : AffineF32 f32_0_7 sv r) : f32_0_7 - f32_0_3 ≤ r ∧ r ≤ 1 := by
  obtain ⟨p, hp, hr⟩ := h
  obtain ⟨c7, c3, c3n, c2, c1, cn1, ch, c0, c73, c23⟩ := isF32_consts K
  have h3 : (0 : K) < f32_0_3 := by norm_num [f32_0_3]
  have hp1 : p ≤ f32_0_3 := hp.le_of_le c3 (by nlinarith)
  have hp2 : -f32_0_3 ≤ p := hp.ge_of_ge c3n (by nlinarith)
  constructor
  · exact hr.ge_of_ge c73 (by linarith)
  · exact hr.le_of_le c1 (by
      have : (f32_0_7 : K) + f32_0_3 = 1 := by norm_num [f32_0_7, f32_0_3]
      linarith)

/-- The range of `0.2f + 0.3f * sv` in binary32 for `sv` in `[-1, 1]`. -/
theorem AffineF32.opacity_mem {sv r : K} (h1 : -1 ≤ sv) (h2 : sv ≤ 1)
    (h : AffineF32 f32_0_2 sv r) : f32_0_2 - f32_0_3 ≤ r ∧ r ≤ 1 / 2 := by
  obtain ⟨p, hp, hr⟩ := h
  obtain ⟨c7, c3, c3n, c2, c1, cn1, ch, c0, c73, c23⟩ := isF32_consts K
  have h3 : (0 : K) < f32_0_3 := by norm_num [f32_0_3]
  have hp1 : p ≤ f32_0_3 := hp.le_of_le c3 (by nlinarith)
  have hp2 : -f32_0_3 ≤ p := hp.ge_of_ge c3n (by nlinarith)
  constructor
  · exact hr.ge_of_ge c23 (by linarith)
  · by_contra hc
    push_neg at hc
    have hsum : (f32_0_2 : K) + f32_0_3 = 1 / 2 + 1 / 2 ^ 26 := by
      norm_num [f32_0_2, f32_0_3]
    have hx : f32_0_2 + p ≤ 1 / 2 + 1 / 2 ^ 26 := by linarith
    have hbig : (1 : K) / 2 ^ 1 ≤ |r| := by
      rw [abs_of_pos (by linarith)]
      norm_num
      linarith
    obtain ⟨n, hn⟩ := hr.1.grid 1 hbig
    have hn' : r = (n : K) / 2 ^ 24 := by simpa using hn
    have hnK : (2 : K) ^ 23 < (n : K) := by
      rw [hn', lt_div_iff₀ (by positivity)] at hc
      norm_num at hc ⊢
      linarith
    have hnZ : (2 : ℤ) ^ 23 < n := by exact_mod_cast hnK
    have hnZ' : (2 : ℤ) ^ 23 + 1 ≤ n := hnZ
    have hnK' : (2 : K) ^ 23 + 1 ≤ (n : K) := by exact_mod_cast hnZ'
    have hr' : (1 : K) / 2 + 1 / 2 ^ 24 ≤ r := by
      rw [hn', le_div_iff₀ (by positivity)]
      norm_num at hnK' ⊢
      linarith
    have hnear := hr.2 (1 / 2) ch
    rw [abs_of_nonpos (by norm_num at hx hr' ⊢; linarith)] at hnear
    rcases le_or_lt (f32_0_2 + p) (1 / 2 : K) with hle | hgt
    · rw [abs_of_nonpos (by linarith)] at hnear
      norm_num at hx hr' hnear
      linarith
    · rw [abs_of_pos (by linarith)] at hnear
      norm_num at hx hr' hnear
      linarith
end Rounding

/-- The real sine at the binary32 value nearest to `3π/2` is within `2^-30` of `-1`. -/
theorem sin_dt_bounds :
    -1 ≤ Real.sin dtNearThreeHalvesPi ∧ Real.sin dtNearThreeHalvesPi ≤ -1 + 1 / 2 ^ 30 := by
  refine ⟨Real.neg_one_le_sin _, ?_⟩
  have hδ : (dtNearThreeHalvesPi : ℝ)
      = (dtNearThreeHalvesPi - (Real.pi + Real.pi / 2)) + Real.pi + Real.pi / 2 := by ring
  rw [hδ, Real.sin_add_pi_div_two, Real.cos_add_pi]
  have hcos : 1 - ((dtNearThreeHalvesPi : ℝ) - (Real.pi + Real.pi / 2)) ^ 2 / 2
      ≤ Real.cos ((dtNearThreeHalvesPi : ℝ) - (Real.pi + Real.pi / 2)) :=
    Real.one_sub_sq_div_two_le_cos
  have h1 := Real.pi_gt_d6
  have h2 := Real.pi_lt_d6
  have hlo : -(1 / 2 ^ 16 : ℝ) ≤ dtNearThreeHalvesPi - (Real.pi + Real.pi / 2) := by
    norm_num [dtNearThreeHalvesPi] at h1 h2 ⊢
    linarith
  have hhi : dtNearThreeHalvesPi - (Real.pi + Real.pi / 2) ≤ (1 / 2 ^ 16 : ℝ) := by
    norm_num [dtNearThreeHalvesPi] at h1 h2 ⊢
    linarith
  have hsq : ((dtNearThreeHalvesPi : ℝ) - (Real.pi + Real.pi / 2)) ^ 2 ≤ (1 / 2 ^ 16) ^ 2 :=
    sq_le_sq' hlo hhi
  norm_num at hsq hcos ⊢
  linarith

/-- At the binary32 value nearest to `3π/2` the nearest sine returns `-1` and nothing else. -/
theorem sinNearest_dt (sv : ℝ) : sinNearest dtNearThreeHalvesPi sv ↔ sv = -1 := by
  obtain ⟨h1, h2⟩ := sin_dt_bounds
  have hc : IsF32 (((-16777216 : ℤ) : ℝ) / 2 ^ (23 + 1)) :=
    IsF32.of_eq_div (-1) 0 (by norm_num) (by norm_num) (by norm_num)
  have hv : (((-16777216 : ℤ) : ℝ) / 2 ^ (23 + 1)) = -1 := by norm_num
  have hx : |Real.sin dtNearThreeHalvesPi - ((-16777216 : ℤ) : ℝ) / 2 ^ (23 + 1)|
      ≤ 1 / 2 ^ 30 := by
    rw [hv, abs_of_nonneg (by linarith)]
    linarith
  have hbig : (1 : ℝ) / 2 ^ 1 + 1 / 2 ^ (24 + 1) ≤ |Real.sin dtNearThreeHalvesPi| := by
    rw [abs_of_nonpos (by norm_num at h2 ⊢; linarith)]
    norm_num at h2 ⊢
    linarith
  constructor
  · intro h
    rw [← hv]
    exact RoundsTo.eq_of_grid 1 (-16777216) h hc
      (lt_of_le_of_lt hx (by norm_num)) hbig
  · rintro rfl
    rw [← hv]
    exact RoundsTo.of_grid 1 (-16777216) hc (le_trans hx (by norm_num)) hbig

/-- For `id = 5` the factor `0.5f + 5 * 0.1f` is `1`: `5 * 0.1f` rounds to `0.5`. -/
theorem sinArg_scale_five (time a : ℝ) :
    SinArgF32 f32_0_5 f32_0_1 5 time a ↔ RoundsTo time a := by
  obtain ⟨c7, c3, c3n, c2, c1, cn1, ch, c0, c73, c23⟩ := isF32_consts ℝ
  have h5 : IsF32 (((5 : ℤ) : ℝ)) :=
    IsF32.of_eq_div 5 0 (by norm_num) (by norm_num) (by norm_num)
  have hc : IsF32 (((16777216 : ℤ) : ℝ) / 2 ^ (23 + 2)) :=
    IsF32.of_eq_div 1 1 (by norm_num) (by norm_num) (by norm_num)
  have hv : (((16777216 : ℤ) : ℝ) / 2 ^ (23 + 2)) = 1 / 2 := by norm_num
  have hx : |((5 : ℤ) : ℝ) * f32_0_1 - ((16777216 : ℤ) : ℝ) / 2 ^ (23 + 2)|
      < 1 / 2 ^ (24 + 2) := by
    norm_num [f32_0_1, abs_lt]
  have hbig : (1 : ℝ) / 2 ^ 2 + 1 / 2 ^ (24 + 2) ≤ |((5 : ℤ) : ℝ) * f32_0_1| := by
    norm_num [f32_0_1, abs_of_pos]
  constructor
  · rintro ⟨idf, t1, t2, hid, ht1, ht2, ha⟩
    have e1 := hid.eq_of_isF32 h5
    subst e1
    have e2 := RoundsTo.eq_of_grid 2 16777216 ht1 hc hx hbig
    rw [hv] at e2
    subst e2
    have e3 := ht2.eq_of_isF32 (by norm_num [f32_0_5]; exact c1)
    subst e3
    have : time * (f32_0_5 + 1 / 2) = time := by norm_num [f32_0_5]
    rwa [this] at ha
  · intro ha
    refine ⟨5, 1 / 2, 1, RoundsTo.self h5, ?_, RoundsTo.of_eq c1 (by norm_num [f32_0_5]), ?_⟩
    · rw [← hv]
      exact RoundsTo.of_grid 2 16777216 hc hx.le hbig
    · rwa [mul_one]

/-- For `id = 14` the factor `0.3f + 14 * 0.05f` is `1`: `14 * 0.05f` rounds to `0.7f`. -/
theorem sinArg_opacity_fourteen (time a : ℝ) :
    SinArgF32 f32_0_3 f32_0_05 14 time a ↔ RoundsTo time a := by
  obtain ⟨c7, c3, c3n, c2, c1, cn1, ch, c0, c73, c23⟩ := isF32_consts ℝ
  have h14 : IsF32 (((14 : ℤ) : ℝ)) :=
    IsF32.of_eq_div 14 0 (by norm_num) (by norm_num) (by norm_num)
  have hc : IsF32 (((11744051 : ℤ) : ℝ) / 2 ^ (23 + 1)) :=
    IsF32.of_eq_div 11744051 24 (by norm_num) (by norm_num) (by norm_num)
  have hx : |((14 : ℤ) : ℝ) * f32_0_05 - ((11744051 : ℤ) : ℝ) / 2 ^ (23 + 1)|
      < 1 / 2 ^ (24 + 1) := by
    norm_num [f32_0_05, abs_lt]
  have hbig : (1 : ℝ) / 2 ^ 1 + 1 / 2 ^ (24 + 1) ≤ |((14 : ℤ) : ℝ) * f32_0_05| := by
    norm_num [f32_0_05, abs_of_pos]
  have hsum : (f32_0_3 : ℝ) + ((11744051 : ℤ) : ℝ) / 2 ^ (23 + 1) = 1 := by
    norm_num [f32_0_3]
  constructor
  · rintro ⟨idf, t1, t2, hid, ht1, ht2, ha⟩
    have e1 := hid.eq_of_isF32 h14
    subst e1
    have e2 := RoundsTo.eq_of_grid 1 11744051 ht1 hc hx hbig
    subst e2
    have e3 := ht2.eq_of_isF32 (by rw [hsum]; exact c1)
    subst e3
    rwa [hsum, mul_one] at ha
  · intro ha
    refine ⟨14, ((11744051 : ℤ) : ℝ) / 2 ^ (23 + 1), 1, RoundsTo.self h14,
      RoundsTo.of_grid 1 11744051 hc hx.le hbig, RoundsTo.of_eq c1 hsum, ?_⟩
    rwa [mul_one]

/-- When the sine returns `-1`, `c0 + 0.3f * (-1)` is `c0 - 0.3f`, provided that is a binary32
value. -/
theorem affineF32_neg_one {K : Type} [LinearOrderedField K] (c0 r : K)
    (hc : IsF32 (c0 - f32_0_3)) : AffineF32 c0 (-1) r ↔ r = c0 - f32_0_3 := by
  obtain ⟨c7, c3, c3n, c2, c1, cn1, ch, cz, c73, c23⟩ := isF32_consts K
  have hp : (f32_0_3 : K) * -1 = -f32_0_3 := by ring
  constructor
  · rintro ⟨p, hp', hr⟩
    rw [hp] at hp'
    have e1 := hp'.eq_of_isF32 c3n
    subst e1
    have hs : c0 + -(f32_0_3 : K) = c0 - f32_0_3 := by ring
    rw [hs] at hr
    exact hr.eq_of_isF32 hc
  · rintro rfl
    exact ⟨-f32_0_3, RoundsTo.of_eq c3n hp, RoundsTo.of_eq hc (by ring)⟩

/-- The scale stored for `id = 5`, `time = 0`, `dt` nearest to `3π/2`. -/
theorem scaleF32_at_dt (r : ℝ) :
    ScaleF32 sinNearest 5 0 dtNearThreeHalvesPi r ↔ r = f32_0_7 - f32_0_3 := by
  obtain ⟨c7, c3, c3n, c2, c1, cn1, ch, cz, c73, c23⟩ := isF32_consts ℝ
  have hdt : IsF32 (dtNearThreeHalvesPi : ℝ) :=
    IsF32.of_eq_div 9882596 21 (by norm_num) (by norm_num) (by norm_num [dtNearThreeHalvesPi])
  have h0 : (0 : ℝ) + dtNearThreeHalvesPi = dtNearThreeHalvesPi := zero_add _
  constructor
  · rintro ⟨time', a, sv, ht, harg, hsin, haff⟩
    rw [h0] at ht
    have e1 := ht.eq_of_isF32 hdt
    subst e1
    rw [sinArg_scale_five] at harg
    have e2 := harg.eq_of_isF32 hdt
    subst e2
    rw [sinNearest_dt] at hsin
    subst hsin
    exact (affineF32_neg_one _ _ c73).mp haff
  · rintro rfl
    exact ⟨dtNearThreeHalvesPi, dtNearThreeHalvesPi, -1, RoundsTo.of_eq hdt h0,
      (sinArg_scale_five _ _).mpr (RoundsTo.self hdt), (sinNearest_dt _).mpr rfl,
      (affineF32_neg_one _ _ c73).mpr rfl⟩

/-- The opacity stored for `id = 14`, `time = 0`, `dt` nearest to `3π/2`. -/
theorem opacityF32_at_dt (r : ℝ) :
    OpacityF32 sinNearest 14 0 dtNearThreeHalvesPi r ↔ r = f32_0_2 - f32_0_3 := by
  obtain ⟨c7, c3, c3n, c2, c1, cn1, ch, cz, c73, c23⟩ := isF32_consts ℝ
  have hdt : IsF32 (dtNearThreeHalvesPi : ℝ) :=
    IsF32.of_eq_div 9882596 21 (by norm_num) (by norm_num) (by norm_num [dtNearThreeHalvesPi])
  have h0 : (0 : ℝ) + dtNearThreeHalvesPi = dtNearThreeHalvesPi := zero_add _
  constructor
  · rintro ⟨time', a, sv, ht, harg, hsin, haff⟩
    rw [h0] at ht
    have e1 := ht.eq_of_isF32 hdt
    subst e1
    rw [sinArg_opacity_fourteen] at harg
    have e2 := harg.eq_of_isF32 hdt
    subst e2
    rw [sinNearest_dt] at hsin
    subst hsin
    exact (affineF32_neg_one _ _ c23).mp haff
  · rintro rfl
    exact ⟨dtNearThreeHalvesPi, dtNearThreeHalvesPi, -1, RoundsTo.of_eq hdt h0,
      (sinArg_opacity_fourteen _ _).mpr (RoundsTo.self hdt), (sinNearest_dt _).mpr rfl,
      (affineF32_neg_one _ _ c23).mpr rfl⟩


/-- The constants of the binary32 embedding are the values of the source literals: each is
the one binary32 value nearest to the decimal it is written as. -/
theorem f32_literals (y : ℝ) :
    (RoundsTo (0.7 : ℝ) y ↔ y = f32_0_7) ∧ (RoundsTo (0.3 : ℝ) y ↔ y = f32_0_3) ∧
    (RoundsTo (0.2 : ℝ) y ↔ y = f32_0_2) ∧ (RoundsTo (0.1 : ℝ) y ↔ y = f32_0_1) ∧
    (RoundsTo (0.05 : ℝ) y ↔ y = f32_0_05) ∧ (RoundsTo (0.5 : ℝ) y ↔ y = f32_0_5) := by
  have key : ∀ (j : ℕ) (c : ℤ) (x v : ℝ), v = (c : ℝ) / 2 ^ (23 + j) → IsF32 v →
      |x - v| < 1 / 2 ^ (24 + j) → 1 / 2 ^ j + 1 / 2 ^ (24 + j) ≤ |x| →
      (RoundsTo x y ↔ y = v) := by
    intro j c x v hv hIs hx hbig
    subst hv
    constructor
    · intro h
      exact RoundsTo.eq_of_grid j c h hIs hx hbig
    · rintro rfl
      exact RoundsTo.of_grid j c hIs hx.le hbig
  refine ⟨key 1 11744051 _ _ (by norm_num [f32_0_7])
      (IsF32.of_eq_div 11744051 24 (by norm_num) (by norm_num) (by norm_num [f32_0_7]))
      (by norm_num [f32_0_7, abs_lt]) (by norm_num [abs_of_pos]),
    key 2 10066330 _ _ (by norm_num [f32_0_3])
      (IsF32.of_eq_div 10066330 25 (by norm_num) (by norm_num) (by norm_num [f32_0_3]))
      (by norm_num [f32_0_3, abs_lt]) (by norm_num [abs_of_pos]),
    key 3 13421773 _ _ (by norm_num [f32_0_2])
      (IsF32.of_eq_div 13421773 26 (by norm_num) (by norm_num) (by norm_num [f32_0_2]))
      (by norm_num [f32_0_2, abs_lt]) (by norm_num [abs_of_pos]),
    key 4 13421773 _ _ (by norm_num [f32_0_1])
      (IsF32.of_eq_div 13421773 27 (by norm_num) (by norm_num) (by norm_num [f32_0_1]))
      (by norm_num [f32_0_1, abs_lt]) (by norm_num [abs_of_pos]),
    key 5 13421773 _ _ (by norm_num [f32_0_05])
      (IsF32.of_eq_div 13421773 28 (by norm_num) (by norm_num) (by norm_num [f32_0_05]))
      (by norm_num [f32_0_05, abs_lt]) (by norm_num [abs_of_pos]),
    ?_⟩
  have h5 : IsF32 (f32_0_5 : ℝ) :=
    IsF32.of_eq_div 1 1 (by norm_num) (by norm_num) (by norm_num [f32_0_5])
  have e5 : (0.5 : ℝ) = f32_0_5 := by norm_num [f32_0_5]
  rw [e5]
  exact ⟨fun h => h.eq_of_isF32 h5, fun h => by rw [h]; exact RoundsTo.self h5⟩

/-- C18, refuted as stated. In binary32, with a `std::sin` that returns a value nearest to
the real sine: for the icon with `id = 5`, `time = 0` and `dt` the binary32 value nearest
to `3π/2`, the sine returns `-1` and `update` stores
`scale = 0.7f - 0.3f = 13421772 / 2^25 = 0.39999997...`, below `0.4`; for `id = 14` it
stores `opacity = 0.2f - 0.3f = -6710887 / 2^26 = -0.100000008...`, below `-0.1`. Each
value is the only one the rounded evaluation admits. -/
theorem seekField_oscillation_counterexample :
    ScaleF32 sinNearest 5 0 dtNearThreeHalvesPi (f32_0_7 - f32_0_3) ∧
    (∀ r : ℝ, ScaleF32 sinNearest 5 0 dtNearThreeHalvesPi r → r = f32_0_7 - f32_0_3) ∧
    (f32_0_7 - f32_0_3 : ℝ) = 13421772 / 2 ^ 25 ∧
    ¬ ((0.4 : ℝ) ≤ f32_0_7 - f32_0_3) ∧
    OpacityF32 sinNearest 14 0 dtNearThreeHalvesPi (f32_0_2 - f32_0_3) ∧
    (∀ r : ℝ, OpacityF32 sinNearest 14 0 dtNearThreeHalvesPi r → r = f32_0_2 - f32_0_3) ∧
    (f32_0_2 - f32_0_3 : ℝ) = -6710887 / 2 ^ 26 ∧
    ¬ ((-0.1 : ℝ) ≤ f32_0_2 - f32_0_3) :=
  ⟨(scaleF32_at_dt _).mpr rfl, fun r h => (scaleF32_at_dt r).mp h,
    by norm_num [f32_0_7, f32_0_3], by norm_num [f32_0_7, f32_0_3],
    (opacityF32_at_dt _).mpr rfl, fun r h => (opacityF32_at_dt r).mp h,
    by norm_num [f32_0_2, f32_0_3], by norm_num [f32_0_2, f32_0_3]⟩

/-- C18, amended. In binary32, for every `std::sin` whose returned values lie in
`[-1, 1]`, every icon id, accumulated time and `dt`: the scale stored by `update` lies in
`[0.7f - 0.3f, 1.0]` and the opacity in `[0.2f - 0.3f, 0.5]`, where
`0.7f - 0.3f = 0.4 - 0.8 / 2^25` and `0.2f - 0.3f = -0.1 - 0.6 / 2^26`: the upper bounds
are those of the claim, the lower bounds are less than one unit in the last place below
`0.4` and `-0.1`. The scale and opacity before the call are not read. -/
theorem seekField_oscillation_binary32 {K : Type} [LinearOrderedField K]
    (sinF : K → K → Prop) (id : Int) (time dt scale opacity : K)
    (hsin : ∀ a sv, sinF a sv → -1 ≤ sv ∧ sv ≤ 1)
    (hs : ScaleF32 sinF id time dt scale) (ho : OpacityF32 sinF id time dt opacity) :
    (f32_0_7 - f32_0_3 ≤ scale ∧ scale ≤ 1.0) ∧
    (f32_0_2 - f32_0_3 ≤ opacity ∧ opacity ≤ 0.5) ∧
    (f32_0_7 - f32_0_3 : K) = 0.4 - 0.8 / 2 ^ 25 ∧
    (f32_0_2 - f32_0_3 : K) = -0.1 - 0.6 / 2 ^ 26 := by
  obtain ⟨_, a, sv, _, _, hsv, haff⟩ := hs
  obtain ⟨_, a', sv', _, _, hsv', haff'⟩ := ho
  have h1 := AffineF32.scale_mem (hsin _ _ hsv).1 (hsin _ _ hsv).2 haff
  have h2 := AffineF32.opacity_mem (hsin _ _ hsv').1 (hsin _ _ hsv').2 haff'
  refine ⟨⟨h1.1, ?_⟩, ⟨h2.1, ?_⟩, ?_, ?_⟩
  · norm_num
    exact h1.2
  · norm_num
    exact h2.2
  · norm_num [f32_0_7, f32_0_3]
  · norm_num [f32_0_2, f32_0_3]

/-- The values returned by `sinNearest` lie in `[-1, 1]`. -/
theorem sinNearest_mem (a sv : ℝ) (h : sinNearest a sv) : -1 ≤ sv ∧ sv ≤ 1 :=
  ⟨h.ge_of_ge (isF32_consts ℝ).2.2.2.2.2.1 (Real.neg_one_le_sin a),
    h.le_of_le (isF32_consts ℝ).2.2.2.2.1 (Real.sin_le_one a)⟩

/-- C18 (amended) at `id = 0`, `time = 0`, `dt = 0` with the nearest sine: the sine
returns `0`, and `update` stores `scale = 0.7f` and `opacity = 0.2f`. -/
theorem seekField_oscillation_binary32_witness :
    ScaleF32 sinNearest 0 0 0 f32_0_7 ∧ OpacityF32 sinNearest 0 0 0 f32_0_2 ∧
    ((f32_0_7 - f32_0_3 ≤ (f32_0_7 : ℝ) ∧ (f32_0_7 : ℝ) ≤ 1.0) ∧
      (f32_0_2 - f32_0_3 ≤ (f32_0_2 : ℝ) ∧ (f32_0_2 : ℝ) ≤ 0.5) ∧
      (f32_0_7 - f32_0_3 : ℝ) = 0.4 - 0.8 / 2 ^ 25 ∧
      (f32_0_2 - f32_0_3 : ℝ) = -0.1 - 0.6 / 2 ^ 26) := by
  obtain ⟨c7, c3, c3n, c2, c1, cn1, ch, c0, c73, c23⟩ := isF32_consts ℝ
  have hsin0 : sinNearest 0 0 := RoundsTo.of_eq c0 Real.sin_zero
  have hs : ScaleF32 sinNearest 0 0 0 f32_0_7 :=
    ⟨0, 0, 0, RoundsTo.of_eq c0 (by norm_num),
      ⟨0, 0, 1 / 2, RoundsTo.of_eq c0 (by norm_num), RoundsTo.of_eq c0 (by norm_num),
        RoundsTo.of_eq ch (by norm_num [f32_0_5]), RoundsTo.of_eq c0 (by norm_num)⟩,
      hsin0, ⟨0, RoundsTo.of_eq c0 (by norm_num), RoundsTo.of_eq c7 (by norm_num)⟩⟩
  have ho : OpacityF32 sinNearest 0 0 0 f32_0_2 :=
    ⟨0, 0, 0, RoundsTo.of_eq c0 (by norm_num),
      ⟨0, 0, f32_0_3, RoundsTo.of_eq c0 (by norm_num), RoundsTo.of_eq c0 (by norm_num),
        RoundsTo.of_eq c3 (by norm_num), RoundsTo.of_eq c0 (by norm_num)⟩,
      hsin0, ⟨0, RoundsTo.of_eq c0 (by norm_num), RoundsTo.of_eq c2 (by norm_num)⟩⟩
  exact ⟨hs, ho, seekField_oscillation_binary32 sinNearest 0 0 0 f32_0_7 f32_0_2
    sinNearest_mem hs ho⟩
